import Mathlib

/-
Verification of the Comet source-to-C transpiler (github.com/yonedash/comet).

The development shallowly embeds the pipeline stages that the checked claims
concern: the lexer (lexer/lexer.go), the recursive-descent parser
(parser/parser.go), the context builder (context/builder.go) and the parts of
the C emitter the claims touch (the compiler state, cImportLib,
compileMemoryDeAllocation, the includes region of CompileC).

Modelling conventions, applied throughout:
- Go slices of pointers to AST nodes are modelled with value semantics
  (List Statement); the repository's own design notes recommend exactly this
  value/arena reading of the pointer-heavy AST.
- Go strings are modelled as Lean String / List Char.  unicode.IsLetter and
  unicode.IsDigit are modelled by their ASCII restriction (Char.isAlpha,
  Char.isDigit), and len(identifier) — a byte length in Go — by the character
  count; the two agree on all ASCII sources, and every concrete input evaluated
  here is ASCII.
- Diagnostic strings: Go formats errors with fmt.Sprintf("%s @ %d:%d >> %v",
  message, row, col, dump).  The embedding keeps the leading message verbatim
  and carries the source trace as a structured field; the trailing
  statement/token dump (Go %v of the whole record) is elided.
- Go enumerations declared as `type X int` with iota constants are modelled as
  Int/Nat with named constants, so sentinel values such as the parser's
  Statement{Type: -1} keep their source meaning.
-/

set_option linter.unusedVariables false

namespace Comet

/-- Source location. The defining file of analysis.SourceTrace is not in the
repository snapshot; the fields Index, Row, Column are modelled from the spec
("A value carrying {index, row, column}") and from their uses in
lexer/lexer.go (Trace.Index is set from an int that can be -1, so the fields
are integers). -/
structure SourceTrace where
  index : Int
  row : Int
  column : Int
deriving DecidableEq, Repr

/-- Token kinds of lexer/tokens.go.  The two variadic kinds are used by
lexer/lexer.go but their const entries are missing from the snapshot's
tokens.go; they are appended here per the spec's token list. -/
inductive TokenType where
  | EOF
  | LF
  | Null
  | Number
  | String
  | Identifier
  | Boolean
  | Equals
  | Colon
  | Semicolon
  | Comma
  | CompareEquals
  | CompareSmaller
  | CompareBigger
  | OpenParenthesis
  | CloseParenthesis
  | OpenCurlyBracket
  | CloseCurlyBracket
  | OpenSquareBracket
  | CloseSquareBracket
  | Addition
  | Subtraction
  | Multiplication
  | Division
  | Modulus
  | ArrowRight
  | Var
  | Const
  | Function
  | Import
  | Native
  | Variadic
  | VariadicNoValidate
deriving DecidableEq, Repr

/-- lexer.Token.  Trace is a pointer in Go (nil on the zero Token), hence an
Option here. -/
structure Token where
  type : TokenType
  value : String
  trace : Option SourceTrace
deriving DecidableEq, Repr

/-- The zero value lexer.Token{}: Type is the zero TokenType, which is EOF. -/
def zeroToken : Token := ⟨TokenType.EOF, "", none⟩

/-- parser.TypeId is `type TypeId int`; the iota order below is the const
block of the parser statements file (unnamed/part_002), which both the spec
and getCommonTypeId's ranking rely on. -/
abbrev TypeId := Nat

def TypeId.Void : TypeId := 0
def TypeId.Bool : TypeId := 1
def TypeId.Custom : TypeId := 2
def TypeId.Int8 : TypeId := 3
def TypeId.UnsignedInt8 : TypeId := 4
def TypeId.Int16 : TypeId := 5
def TypeId.UnsignedInt16 : TypeId := 6
def TypeId.Float32 : TypeId := 7
def TypeId.Int32 : TypeId := 8
def TypeId.UnsignedInt32 : TypeId := 9
def TypeId.Float64 : TypeId := 10
def TypeId.Complex64 : TypeId := 11
def TypeId.Complex128 : TypeId := 12
def TypeId.Int64 : TypeId := 13
def TypeId.UnsignedInt64 : TypeId := 14

/-- context/builder.go returns parser.String for string literals; the revision
of the parser statements file declaring it is not in the snapshot.  It is
placed after the part_002 const block, which does not affect any claim (only
its identity and its rank above Custom matter). -/
def TypeId.String : TypeId := 15

/-- parser.ActualType.  Later revisions add a Variadic flag (spec §3); no
function verified here reads it, and the revision of the struct cited by the
claims (unnamed/part_002) has exactly these two fields. -/
structure ActualType where
  id : TypeId
  customName : String
deriving DecidableEq, Repr

/-- The zero value parser.ActualType{} (Id Void, empty name). -/
def zeroActualType : ActualType := ⟨TypeId.Void, ""⟩

/-- parser.StatementType is `type StatementType int`; -1 is the parser's
skip sentinel.  The repository has two naming generations for the same
enumeration (NumberLiteral in context/builder.go versus NumberExpression in
parser/parser.go); both names are provided for the same value. -/
abbrev StmtType := Int

def StmtType.Root : StmtType := 0
def StmtType.NullLiteral : StmtType := 1
def StmtType.NumberLiteral : StmtType := 2
def StmtType.StringLiteral : StmtType := 3
def StmtType.BooleanLiteral : StmtType := 4
def StmtType.IdentifierExpression : StmtType := 5
def StmtType.BinaryExpression : StmtType := 6
def StmtType.FunctionExpression : StmtType := 7
def StmtType.FunctionDeclaration : StmtType := 8
def StmtType.VariableDeclaration : StmtType := 9
def StmtType.ScopeDeclaration : StmtType := 10
def StmtType.VariableAssignment : StmtType := 11
def StmtType.ImportStatement : StmtType := 12
def StmtType.MemoryDeAllocation : StmtType := 13

def StmtType.NullExpression : StmtType := StmtType.NullLiteral
def StmtType.NumberExpression : StmtType := StmtType.NumberLiteral
def StmtType.StringExpression : StmtType := StmtType.StringLiteral
def StmtType.BooleanExpression : StmtType := StmtType.BooleanLiteral

/-- parser.BinaryOperation is `type BinaryOperation int`. -/
abbrev BinaryOperation := Int

def AdditionOperation : BinaryOperation := 0
def SubtractionOperation : BinaryOperation := 1
def MultiplicationOperation : BinaryOperation := 2
def DivisionOperation : BinaryOperation := 3
def ModulusOperation : BinaryOperation := 4

/-- parser.ScopeVar.  VarValueExpression (a node pointer stored by
analyzeVariableDeclaration and never read by any function verified here) is
omitted so that ScopeVar stays non-recursive. -/
structure ScopeVar where
  varType : ActualType
  varName : String
  varConstant : Bool
  varOfFunction : Bool
  ALLOCATED : Bool
deriving DecidableEq, Repr

/-- parser.ScopeFn of the revision context/builder.go compiles against
(FnTypes, FnArgNames, FnArgTypes, FnName). -/
structure ScopeFn where
  fnTypes : List ActualType
  fnArgNames : List String
  fnArgTypes : List ActualType
  fnName : String
deriving DecidableEq, Repr

/-- parser.ScopeType. -/
structure ScopeType where
  typeName : String
deriving DecidableEq, Repr

/-- parser.Scope; Parent is a pointer in Go, so the chain is modelled as a
nested Option. -/
inductive Scope where
  | mk (parent : Option Scope) (vars : List ScopeVar) (fns : List ScopeFn)
      (types : List ScopeType)

def Scope.parent : Scope → Option Scope
  | .mk p _ _ _ => p

def Scope.vars : Scope → List ScopeVar
  | .mk _ v _ _ => v

def Scope.fns : Scope → List ScopeFn
  | .mk _ _ f _ => f

def Scope.types : Scope → List ScopeType
  | .mk _ _ _ t => t

/-- The zero value parser.Scope{}. -/
def zeroScope : Scope := .mk none [] [] []

theorem sizeOf_parent_lt {s : Scope} {p : Scope} (h : s.parent = some p) :
    sizeOf p < sizeOf s := by
  cases s with
  | mk pa v f t =>
    simp_all [Scope.parent]
    omega

/-- Scope.GetVariable: first match over Vars in order, then the parent chain. -/
def Scope.getVariable (s : Scope) (name : String) : Option ScopeVar :=
  match s.vars.find? (fun v => v.varName = name) with
  | some v => some v
  | none =>
    match h : s.parent with
    | some p => p.getVariable name
    | none => none
termination_by sizeOf s
decreasing_by
  · exact sizeOf_parent_lt h

/-- Scope.GetFunction. -/
def Scope.getFunction (s : Scope) (name : String) : Option ScopeFn :=
  match s.fns.find? (fun function => function.fnName = name) with
  | some function => some function
  | none =>
    match h : s.parent with
    | some p => p.getFunction name
    | none => none
termination_by sizeOf s
decreasing_by
  · exact sizeOf_parent_lt h

/-- The field set of parser.Statement (the revision all four stages share),
parameterised so that Statement below can close the recursion.  Pointer
fields (Left, Right, RunScope, RunCaller, ContextVariable) are Options;
slice fields are Lists. -/
structure StatementF (α : Type) where
  type : StmtType
  children : List α
  left : Option α
  right : Option α
  operator : BinaryOperation
  range : String
  value : String
  runScope : Option α
  runCaller : Option α
  argTypes : List ActualType
  argNames : List String
  types : List ActualType
  expressions : List α
  identifiers : List α
  constant : Bool
  arraySizes : List Int
  variadic : Bool
  trace : SourceTrace
  context : Scope
  contextVariable : Option ScopeVar
  contextFunction : Option ScopeFn
  native : Bool

/-- parser.Statement. -/
inductive Statement where
  | mk (f : StatementF Statement)

def Statement.f : Statement → StatementF Statement
  | .mk f => f

/-- The zero value parser.Statement{} (Type is Root = 0). -/
def zeroF : StatementF Statement :=
  ⟨0, [], none, none, 0, "", "", none, none, [], [], [], [], [], false, [],
    false, ⟨0, 0, 0⟩, zeroScope, none, none, false⟩

def zeroStmt : Statement := ⟨zeroF⟩

theorem sizeOf_f_lt (s : Statement) : sizeOf s.f < sizeOf s := by
  cases s with
  | mk f => simp [Statement.f]

theorem sizeOf_lt_of_mem_children {s : Statement} {x : Statement}
    (h : x ∈ s.f.children) : sizeOf x < sizeOf s := by
  have hx := List.sizeOf_lt_of_mem h
  cases s with
  | mk f =>
    obtain ⟨a1, a2, a3, a4, a5, a6, a7, a8, a9, a10, a11, a12, a13, a14, a15,
      a16, a17, a18, a19, a20, a21, a22⟩ := f
    simp_all [Statement.f]
    omega

theorem sizeOf_lt_of_mem_expressions {s : Statement} {x : Statement}
    (h : x ∈ s.f.expressions) : sizeOf x < sizeOf s := by
  have hx := List.sizeOf_lt_of_mem h
  cases s with
  | mk f =>
    obtain ⟨a1, a2, a3, a4, a5, a6, a7, a8, a9, a10, a11, a12, a13, a14, a15,
      a16, a17, a18, a19, a20, a21, a22⟩ := f
    simp_all [Statement.f]
    omega

theorem sizeOf_lt_of_mem_identifiers {s : Statement} {x : Statement}
    (h : x ∈ s.f.identifiers) : sizeOf x < sizeOf s := by
  have hx := List.sizeOf_lt_of_mem h
  cases s with
  | mk f =>
    obtain ⟨a1, a2, a3, a4, a5, a6, a7, a8, a9, a10, a11, a12, a13, a14, a15,
      a16, a17, a18, a19, a20, a21, a22⟩ := f
    simp_all [Statement.f]
    omega

theorem sizeOf_lt_of_left {s : Statement} {l : Statement}
    (h : s.f.left = some l) : sizeOf l < sizeOf s := by
  cases s with
  | mk f =>
    obtain ⟨a1, a2, a3, a4, a5, a6, a7, a8, a9, a10, a11, a12, a13, a14, a15,
      a16, a17, a18, a19, a20, a21, a22⟩ := f
    simp_all [Statement.f]
    omega

theorem sizeOf_lt_of_right {s : Statement} {r : Statement}
    (h : s.f.right = some r) : sizeOf r < sizeOf s := by
  cases s with
  | mk f =>
    obtain ⟨a1, a2, a3, a4, a5, a6, a7, a8, a9, a10, a11, a12, a13, a14, a15,
      a16, a17, a18, a19, a20, a21, a22⟩ := f
    simp_all [Statement.f]
    omega

/-! Lexer (lexer/lexer.go).  The tokenReader is represented by the source
character list and a cursor; tokenReader.at returns the zero rune for an
out-of-range index, and indices may go negative (before/at(index-2)), hence
Int indices in charAt.  The scanning loops are phrased with an explicit fuel
argument so they are structurally recursive and kernel-evaluable; the fuel
each wrapper supplies (src.length + 1 relative to the start index) makes fuel
exhaustion coincide exactly with the position at which the Go loop's own
guard (cursor past the end, zero rune matching no branch) stops, so the
wrappers compute exactly what the Go functions compute. -/

/-- lexer.TokenizeError, carrying the "Unknown character @ row:col 'ch'" data
(the formatted string is elided, its three parameters are kept). -/
structure TokenizeError where
  row : Int
  column : Int
  char : Char
deriving DecidableEq, Repr

/-- tokenReader.at: the rune at an index, 0 when out of range. -/
def charAt (src : List Char) (i : Int) : Char :=
  if h : 0 ≤ i ∧ i < (src.length : Int) then src.get ⟨i.toNat, by omega⟩
  else Char.ofNat 0

/-- lexer.isWhitespace. -/
def isWhitespace (ch : Char) : Bool :=
  ch == ' ' || ch == '\n' || ch == '\r' || ch == '\t'

/-- lexer.Keywords. -/
def keywords (s : String) : Option TokenType :=
  if s = "null" then some TokenType.Null
  else if s = "var" then some TokenType.Var
  else if s = "const" then some TokenType.Const
  else if s = "fn" then some TokenType.Function
  else if s = "true" then some TokenType.Boolean
  else if s = "false" then some TokenType.Boolean
  else if s = "import" then some TokenType.Import
  else if s = "native" then some TokenType.Native
  else none

/-- lexer.safelyEndIdentifier: flush a pending identifier as a keyword or
Identifier token at index - len(identifier); no-op when empty. -/
def safelyEndIdentifier (identifier : List Char) (tokens : List Token)
    (index : Int) : List Token :=
  if identifier = [] then tokens
  else
    match keywords (String.mk identifier) with
    | some tokenType =>
      tokens ++ [⟨tokenType, String.mk identifier,
        some ⟨index - (identifier.length : Int), 0, 0⟩⟩]
    | none =>
      tokens ++ [⟨TokenType.Identifier, String.mk identifier,
        some ⟨index - (identifier.length : Int), 0, 0⟩⟩]

/-- lexer.appendType: flush any pending identifier, then append a token at
the given index (row and column are filled later by fillTraces, as in Go
where only Trace.Index is set here). -/
def appendType (tokenType : TokenType) (identifier : List Char)
    (tokens : List Token) (index : Int) (value : String) : List Token :=
  (safelyEndIdentifier identifier tokens index)
    ++ [⟨tokenType, value, some ⟨index, 0, 0⟩⟩]

/-- The loop of lexer.str: consume until an unescaped quote; the escape test
looks back one and two characters. -/
def strLoop (fuel : Nat) (src : List Char) (i : Nat) (value : List Char) :
    List Char × Nat :=
  match fuel with
  | 0 => (value, i)
  | fuel + 1 =>
    let ch := charAt src (i : Int)
    if i ≥ src.length then (value, i)
    else if (ch = '"' ∧ charAt src ((i : Int) - 1) ≠ '\\')
        ∨ (ch = '"' ∧ charAt src ((i : Int) - 1) = '\\'
            ∧ charAt src ((i : Int) - 2) = '\\') then
      (value, i + 1)
    else strLoop fuel src (i + 1) (value ++ [ch])

/-- lexer.str: the String token starting at the opening quote, and the cursor
position after the closing quote (or the end). -/
def str (src : List Char) (index : Nat) : Token × Nat :=
  let r := strLoop (src.length + 1 - (index + 1)) src (index + 1) []
  (⟨TokenType.String, String.mk r.1, some ⟨(index : Int), 0, 0⟩⟩, r.2)

/-- The loop of lexer.number: an optional leading minus on the first
iteration, at most one dot, digits. -/
def numberLoop (fuel : Nat) (src : List Char) (i : Nat) (value : List Char)
    (dots : Nat) (iter : Nat) : List Char × Nat :=
  match fuel with
  | 0 => (value, i)
  | fuel + 1 =>
    let ch := charAt src (i : Int)
    if iter = 0 ∧ ch = '-' then
      numberLoop fuel src (i + 1) (value ++ [ch]) dots (iter + 1)
    else if dots = 0 ∧ ch = '.' then
      numberLoop fuel src (i + 1) (value ++ [ch]) (dots + 1) (iter + 1)
    else if ch.isDigit then
      numberLoop fuel src (i + 1) (value ++ [ch]) dots (iter + 1)
    else (value, i)

/-- lexer.number: the Number token starting at index (its lexeme may be
empty of digits, e.g. just "-" or "."), and the cursor after it. -/
def number (src : List Char) (index : Nat) : Token × Nat :=
  let r := numberLoop (src.length + 1 - index) src index [] 0 0
  (⟨TokenType.Number, String.mk r.1, some ⟨(index : Int), 0, 0⟩⟩, r.2)

/-- lexer.getLineFeeds: 0, then the index of every line feed. -/
def getLineFeeds (src : List Char) : List Int :=
  (0 : Int) :: (List.range src.length).filterMap
    (fun k => if charAt src (k : Int) = '\n' then some ((k : Int)) else none)

/-- The scan of lexer.getLocationOfIndex: the first position whose offset is
at most the index, with the next offset (if any) beyond it; (-1, -1) when no
position matches.  Column gets +1 only on the first line. -/
def locGo (index : Int) : List Int → Nat → Int × Int
  | [], _ => (-1, -1)
  | [lf], pos =>
    if lf ≤ index then
      ((pos : Int) + 1, if pos = 0 then index - lf + 1 else index - lf)
    else (-1, -1)
  | lf :: next :: rest, pos =>
    if lf ≤ index ∧ next > index then
      ((pos : Int) + 1, if pos = 0 then index - lf + 1 else index - lf)
    else locGo index (next :: rest) (pos + 1)

/-- lexer.getLocationOfIndex. -/
def getLocationOfIndex (index : Int) (lineFeeds : List Int) : Int × Int :=
  locGo index lineFeeds 0

/-- lexer.fillTraces: compute row and column for every token's trace index
(in Go this mutates through the trace pointer; every lexer-made token has
one, so the none case is unreachable there). -/
def fillTraces (tokens : List Token) (src : List Char) : List Token :=
  tokens.map (fun token =>
    match token.trace with
    | some trace =>
      let rc := getLocationOfIndex trace.index (getLineFeeds src)
      ⟨token.type, token.value, some ⟨trace.index, rc.1, rc.2⟩⟩
    | none => token)

/-- The main loop of lexer.Tokenize, branch for branch in source order.  The
fuel-zero arm duplicates the loop-exit arm: Tokenize supplies fuel
src.length + 1 and every iteration advances the cursor by at least one, so
fuel runs out only with the cursor already past the end, where the Go loop
exits the same way. -/
def tokenizeLoop (fuel : Nat) (src : List Char) (i : Nat)
    (identifier : List Char) (isComment : Nat) (tokens : List Token) :
    Except TokenizeError (List Token) :=
  match fuel with
  | 0 => .ok (safelyEndIdentifier identifier tokens (src.length : Int))
  | fuel + 1 =>
    if i ≥ src.length then
      .ok (safelyEndIdentifier identifier tokens (src.length : Int))
    else
      if charAt src (i : Int) = '/' ∧ charAt src ((i : Int) + 1) = '/' then
        tokenizeLoop fuel src (i + 2) [] 1
          (safelyEndIdentifier identifier tokens (i : Int))
      else if charAt src (i : Int) = '/' ∧ charAt src ((i : Int) + 1) = '*' then
        tokenizeLoop fuel src (i + 2) [] 2
          (safelyEndIdentifier identifier tokens (i : Int))
      else if isComment = 1 ∧ charAt src (i : Int) = '\n' then
        tokenizeLoop fuel src (i + 1) identifier 0 tokens
      else if isComment = 2 ∧ charAt src (i : Int) = '*'
          ∧ charAt src ((i : Int) + 1) = '/' then
        tokenizeLoop fuel src (i + 2) identifier 0 tokens
      else if isComment > 0 then
        tokenizeLoop fuel src (i + 1) identifier isComment tokens
      else if charAt src (i : Int) = '"' then
        tokenizeLoop fuel src (str src i).2 [] isComment
          ((safelyEndIdentifier identifier tokens (i : Int)) ++ [(str src i).1])
      else if charAt src (i : Int) = '-' ∧ charAt src ((i : Int) + 1) = '>' then
        tokenizeLoop fuel src (i + 2) [] isComment
          (appendType TokenType.ArrowRight identifier tokens (i : Int) "->")
      else if identifier = [] ∧ ((charAt src (i : Int)).isDigit
          ∨ charAt src (i : Int) = '.' ∨ charAt src (i : Int) = '-') then
        tokenizeLoop fuel src (number src i).2 identifier isComment
          (tokens ++ [(number src i).1])
      else if charAt src (i : Int) = '\n' then
        tokenizeLoop fuel src (i + 1) [] isComment
          (appendType TokenType.LF identifier tokens (i : Int) "\n")
      else if charAt src (i : Int) = ';' then
        tokenizeLoop fuel src (i + 1) [] isComment
          (appendType TokenType.Semicolon identifier tokens (i : Int) ";")
      else if charAt src (i : Int) = ':' then
        tokenizeLoop fuel src (i + 1) [] isComment
          (appendType TokenType.Colon identifier tokens (i : Int) ":")
      else if charAt src (i : Int) = ',' then
        tokenizeLoop fuel src (i + 1) [] isComment
          (appendType TokenType.Comma identifier tokens (i : Int) ",")
      else if charAt src (i : Int) = '(' then
        tokenizeLoop fuel src (i + 1) [] isComment
          (appendType TokenType.OpenParenthesis identifier tokens (i : Int) "(")
      else if charAt src (i : Int) = ')' then
        tokenizeLoop fuel src (i + 1) [] isComment
          (appendType TokenType.CloseParenthesis identifier tokens (i : Int) ")")
      else if charAt src (i : Int) = '\x7b' then
        tokenizeLoop fuel src (i + 1) [] isComment
          (appendType TokenType.OpenCurlyBracket identifier tokens (i : Int) "\x7b")
      else if charAt src (i : Int) = '\x7d' then
        tokenizeLoop fuel src (i + 1) [] isComment
          (appendType TokenType.CloseCurlyBracket identifier tokens (i : Int) "\x7d")
      else if charAt src (i : Int) = '[' then
        tokenizeLoop fuel src (i + 1) [] isComment
          (appendType TokenType.OpenSquareBracket identifier tokens (i : Int) "[")
      else if charAt src (i : Int) = ']' then
        tokenizeLoop fuel src (i + 1) [] isComment
          (appendType TokenType.CloseSquareBracket identifier tokens (i : Int) "]")
      else if charAt src (i : Int) = '+' then
        tokenizeLoop fuel src (i + 1) [] isComment
          (appendType TokenType.Addition identifier tokens (i : Int) "+")
      else if charAt src (i : Int) = '-' then
        tokenizeLoop fuel src (i + 1) [] isComment
          (appendType TokenType.Subtraction identifier tokens (i : Int) "-")
      else if charAt src (i : Int) = '*' then
        tokenizeLoop fuel src (i + 1) [] isComment
          (appendType TokenType.Multiplication identifier tokens (i : Int) "*")
      else if charAt src (i : Int) = '/' then
        tokenizeLoop fuel src (i + 1) [] isComment
          (appendType TokenType.Division identifier tokens (i : Int) "/")
      else if charAt src (i : Int) = '%' then
        tokenizeLoop fuel src (i + 1) [] isComment
          (appendType TokenType.Modulus identifier tokens (i : Int) "%")
      else if charAt src (i : Int) = '=' ∧ charAt src ((i : Int) + 1) = '=' then
        tokenizeLoop fuel src (i + 2) [] isComment
          (appendType TokenType.CompareEquals identifier tokens (i : Int) "==")
      else if charAt src (i : Int) = '=' ∧ charAt src ((i : Int) + 1) = '<' then
        tokenizeLoop fuel src (i + 2) [] isComment
          (appendType TokenType.CompareSmaller identifier tokens (i : Int) "=<")
      else if charAt src (i : Int) = '=' ∧ charAt src ((i : Int) + 1) = '>' then
        tokenizeLoop fuel src (i + 2) [] isComment
          (appendType TokenType.CompareBigger identifier tokens (i : Int) "=>")
      else if charAt src (i : Int) = '=' then
        tokenizeLoop fuel src (i + 1) [] isComment
          (appendType TokenType.Equals identifier tokens (i : Int) "=")
      else if charAt src (i : Int) = '.' ∧ charAt src ((i : Int) + 1) = '.'
          ∧ charAt src ((i : Int) + 2) = '.' then
        tokenizeLoop fuel src (i + 3) [] isComment
          (appendType TokenType.Variadic identifier tokens (i : Int) "...")
      else if charAt src (i : Int) = '.' ∧ charAt src ((i : Int) + 1) = '.'
          ∧ charAt src ((i : Int) + 2) = '?' then
        tokenizeLoop fuel src (i + 3) [] isComment
          (appendType TokenType.VariadicNoValidate identifier tokens (i : Int) "..?")
      else if isWhitespace (charAt src (i : Int)) then
        tokenizeLoop fuel src (i + 1) [] isComment
          (safelyEndIdentifier identifier tokens (i : Int))
      else if (charAt src (i : Int)).isAlpha
          ∨ (identifier ≠ [] ∧ ((charAt src (i : Int)).isDigit
              ∨ charAt src (i : Int) = '.')) then
        tokenizeLoop fuel src (i + 1) (identifier ++ [charAt src (i : Int)])
          isComment tokens
      else
        .error ⟨(getLocationOfIndex (i : Int) (getLineFeeds src)).1,
          (getLocationOfIndex (i : Int) (getLineFeeds src)).2,
          charAt src (i : Int)⟩

/-- lexer.Tokenize (on the source text; the Go function first reads the file
named by its path argument, an IO step outside the core).  After the scan an
EOF token at index len-1 is appended and all traces get row/column filled. -/
def Tokenize (src : List Char) : Except TokenizeError (List Token) :=
  match tokenizeLoop (src.length + 1) src 0 [] 0 [] with
  | .error e => .error e
  | .ok tokens =>
    .ok (fillTraces
      (tokens ++ [⟨TokenType.EOF, "", some ⟨(src.length : Int) - 1, 0, 0⟩⟩])
      src)

example :
    (Tokenize "a - b".toList).map (fun l => l.map (fun t => (t.type, t.value)))
      = .ok [(TokenType.Identifier, "a"), (TokenType.Number, "-"),
          (TokenType.Identifier, "b"), (TokenType.EOF, "")] := by rfl

example :
    (Tokenize "fn x\x7b".toList).map (fun l => l.map (fun t => (t.type, t.value)))
      = .ok [(TokenType.Function, "fn"), (TokenType.Identifier, "x"),
          (TokenType.OpenCurlyBracket, "\x7b"), (TokenType.EOF, "")] := by rfl

example :
    Tokenize "\n".toList
      = .ok [⟨TokenType.LF, "\n", some ⟨0, 2, 0⟩⟩,
          ⟨TokenType.EOF, "", some ⟨0, 2, 0⟩⟩] := by rfl

/-! Parser (parser/parser.go).  The token cursor (Go's tokenParser, a mutable
struct) is threaded through a state monad over Except; Go's error returns
abort every caller up to ParseTokens, which matches the Except short-circuit.
Recursion is bounded by an explicit fuel argument (the Go recursion
terminates because every loop and every descent consumes tokens); running out
of fuel yields the distinguished outOfFuel error, which no theorem below
confuses with a ParseError, and ParseTokens supplies fuel well beyond the
recursion depth reachable on the token lists evaluated here. -/

/-- parser.tokenParser: the token slice and the cursor. -/
structure tokenParser where
  tokens : List Token
  index : Nat
deriving DecidableEq, Repr

/-- tokenParser.at: zero Token when out of range. -/
def tokenParser.tokenAt (r : tokenParser) (i : Int) : Token :=
  if h : 0 ≤ i ∧ i < (r.tokens.length : Int) then r.tokens.get ⟨i.toNat, by omega⟩
  else zeroToken

/-- tokenParser.current. -/
def tokenParser.current (r : tokenParser) : Token :=
  r.tokenAt (r.index : Int)

/-- tokenParser.after. -/
def tokenParser.after (r : tokenParser) : Token :=
  r.tokenAt ((r.index : Int) + 1)

/-- tokenParser.isDone: past the end or at an EOF token. -/
def tokenParser.isDone (r : tokenParser) : Bool :=
  r.index ≥ r.tokens.length || (r.tokenAt (r.index : Int)).type == TokenType.EOF

/-- parser.ParseError (message and trace; the Sprintf row:col/token-dump
formatting is elided per the file conventions), plus the fuel sentinel of
this embedding. -/
inductive PErr where
  | parseErr (message : String) (trace : Option SourceTrace)
  | outOfFuel
deriving DecidableEq, Repr

/-- parser.parseError: "No trace found for error" when the token has no
trace. -/
def parseErrorTok (token : Token) (message : String) : PErr :=
  match token.trace with
  | none => .parseErr "No trace found for error" none
  | some trace => .parseErr message (some trace)

/-- The message of a ParseError result, if any (none for ok and outOfFuel). -/
def PErr.message? : PErr → Option String
  | .parseErr m _ => some m
  | .outOfFuel => none

abbrev ParseM := StateT tokenParser (Except PErr)

/-- tokenParser.consume: return the current token, advance the cursor. -/
def consumeTok : ParseM Token := do
  let r ← get
  set { r with index := r.index + 1 }
  pure (r.tokenAt (r.index : Int))

def getCurrent : ParseM Token := do
  pure (← get).current

def ofParse {α : Type} : Except PErr α → ParseM α
  | .ok a => pure a
  | .error e => throw e

/-- The skip sentinel Statement{Type: -1} the parser returns for LF/';'. -/
def skipStmt : Statement := ⟨{ zeroF with type := -1 }⟩

/-- parser.processStatement: (skip?, statement with its trace set from the
statement's first token).  Go dereferences start.Trace, which every
lexer-made token carries. -/
def processStatement (start : Token) (statement : Statement) :
    Bool × Statement :=
  if statement.f.type < 0 then (true, statement)
  else (false, ⟨{ statement.f with trace := start.trace.getD ⟨0, 0, 0⟩ }⟩)

/-- parser.demandNewLineOrSemicolon (checks without consuming). -/
def demandNewLineOrSemicolon (statement : Statement) : ParseM Statement := do
  let current ← getCurrent
  if current.type ≠ TokenType.LF ∧ current.type ≠ TokenType.Semicolon then
    throw (parseErrorTok current "Expected new line or semicolon")
  else pure statement

/-- parser.parseType: the type-name table; unknown identifiers become Custom
types carrying their name. -/
def parseType (token : Token) : Except PErr ActualType :=
  if token.type ≠ TokenType.Identifier then
    .error (parseErrorTok token "Expected type")
  else if token.value = "void" then .ok ⟨TypeId.Void, ""⟩
  else if token.value = "int8" then .ok ⟨TypeId.Int8, ""⟩
  else if token.value = "int16" then .ok ⟨TypeId.Int16, ""⟩
  else if token.value = "int32" ∨ token.value = "int" then .ok ⟨TypeId.Int32, ""⟩
  else if token.value = "int64" then .ok ⟨TypeId.Int64, ""⟩
  else if token.value = "uint8" then .ok ⟨TypeId.UnsignedInt8, ""⟩
  else if token.value = "uint16" then .ok ⟨TypeId.UnsignedInt16, ""⟩
  else if token.value = "uint32" then .ok ⟨TypeId.UnsignedInt32, ""⟩
  else if token.value = "uint64" then .ok ⟨TypeId.UnsignedInt64, ""⟩
  else if token.value = "float32" ∨ token.value = "float" then .ok ⟨TypeId.Float32, ""⟩
  else if token.value = "float64" ∨ token.value = "double" then .ok ⟨TypeId.Float64, ""⟩
  else if token.value = "complex64" then .ok ⟨TypeId.Complex64, ""⟩
  else if token.value = "complex128" then .ok ⟨TypeId.Complex128, ""⟩
  else if token.value = "bool" then .ok ⟨TypeId.Bool, ""⟩
  else .ok ⟨TypeId.Custom, token.value⟩

/-- The "strings only" check of parser.parseImport over the parsed values. -/
def valuesToStrings (token : Token) : List Statement → Except PErr (List String)
  | [] => .ok []
  | v :: rest =>
    if v.f.type = StmtType.StringExpression then
      (valuesToStrings token rest).map (fun tail => v.f.value :: tail)
    else .error (parseErrorTok token "Expecting strings")

mutual

/-- parser.parseStatement. -/
def parseStatement (fuel : Nat) : ParseM Statement :=
  match fuel with
  | 0 => throw .outOfFuel
  | fuel + 1 => do
    let current ← getCurrent
    if current.type = TokenType.LF ∨ current.type = TokenType.Semicolon then do
      let _ ← consumeTok
      pure skipStmt
    else if current.type = TokenType.OpenCurlyBracket then parseScope fuel
    else if current.type = TokenType.Function then parseFunction fuel
    else if current.type = TokenType.Import then parseImport fuel
    else if current.type = TokenType.Var ∨ current.type = TokenType.Const then
      parseVariableDeclaration fuel
    else if current.type = TokenType.Identifier
        ∨ current.type = TokenType.OpenParenthesis then do
      if current.type = TokenType.Identifier
          ∧ (← get).after.type = TokenType.OpenParenthesis then
        throw (parseErrorTok current "FUNC CALL")
      else parseVariableAssign fuel
    else throw (parseErrorTok current "Unexpected token, statement expected")

/-- parser.parseExpression. -/
def parseExpression (fuel : Nat) : ParseM Statement :=
  match fuel with
  | 0 => throw .outOfFuel
  | fuel + 1 => parseAdditiveExpression fuel

/-- parser.parseAdditiveExpression (its loop is parseAdditiveLoop). -/
def parseAdditiveExpression (fuel : Nat) : ParseM Statement :=
  match fuel with
  | 0 => throw .outOfFuel
  | fuel + 1 => do
    let left ← parseMultiplicativeExpression fuel
    parseAdditiveLoop fuel left

/-- The accumulation loop of parseAdditiveExpression: left-associative
chaining of + and - over multiplicative operands. -/
def parseAdditiveLoop (fuel : Nat) (mutableLeft : Statement) : ParseM Statement :=
  match fuel with
  | 0 => throw .outOfFuel
  | fuel + 1 => do
    if (← get).isDone then pure mutableLeft
    else do
      let token ← getCurrent
      if token.type ≠ TokenType.Addition ∧ token.type ≠ TokenType.Subtraction then
        pure mutableLeft
      else do
        let operatorTok ← consumeTok
        let operation :=
          if operatorTok.type ≠ TokenType.Addition then SubtractionOperation
          else AdditionOperation
        let right ← parseMultiplicativeExpression fuel
        parseAdditiveLoop fuel
          ⟨{ zeroF with
              type := StmtType.BinaryExpression, left := some mutableLeft,
              right := some right, operator := operation }⟩

/-- parser.parseMultiplicativeExpression (its loop is
parseMultiplicativeLoop). -/
def parseMultiplicativeExpression (fuel : Nat) : ParseM Statement :=
  match fuel with
  | 0 => throw .outOfFuel
  | fuel + 1 => do
    let left ← parsePrimaryExpression fuel
    parseMultiplicativeLoop fuel left

/-- The accumulation loop of parseMultiplicativeExpression: *, / and %. -/
def parseMultiplicativeLoop (fuel : Nat) (mutableLeft : Statement) :
    ParseM Statement :=
  match fuel with
  | 0 => throw .outOfFuel
  | fuel + 1 => do
    if (← get).isDone then pure mutableLeft
    else do
      let token ← getCurrent
      if token.type ≠ TokenType.Multiplication ∧ token.type ≠ TokenType.Division
          ∧ token.type ≠ TokenType.Modulus then
        pure mutableLeft
      else do
        let operatorTok ← consumeTok
        let operation :=
          if operatorTok.type = TokenType.Division then DivisionOperation
          else if operatorTok.type = TokenType.Modulus then ModulusOperation
          else MultiplicationOperation
        let right ← parsePrimaryExpression fuel
        parseMultiplicativeLoop fuel
          ⟨{ zeroF with
              type := StmtType.BinaryExpression, left := some mutableLeft,
              right := some right, operator := operation }⟩

/-- parser.parsePrimaryExpression.  The parenthesis arm reproduces the
source's error swallowing: an error from the inner parseExpression is
dropped and the zero Statement is returned with a nil error (the cursor
state after the failed sub-parse, indeterminate in Go, is taken as the state
at entry to the sub-parse; no claim exercises this arm's error path). -/
def parsePrimaryExpression (fuel : Nat) : ParseM Statement :=
  match fuel with
  | 0 => throw .outOfFuel
  | fuel + 1 => do
    let token ← getCurrent
    if token.type = TokenType.Identifier then do
      let _ ← consumeTok
      pure ⟨{ zeroF with type := StmtType.IdentifierExpression, value := token.value }⟩
    else if token.type = TokenType.Number then do
      let _ ← consumeTok
      pure ⟨{ zeroF with type := StmtType.NumberExpression, value := token.value }⟩
    else if token.type = TokenType.String then do
      let _ ← consumeTok
      pure ⟨{ zeroF with type := StmtType.StringExpression, value := token.value }⟩
    else if token.type = TokenType.Boolean then do
      let _ ← consumeTok
      pure ⟨{ zeroF with type := StmtType.BooleanExpression, value := token.value }⟩
    else if token.type = TokenType.OpenParenthesis then do
      let _ ← consumeTok
      let wrapped? ← tryCatch
        (do pure (some (← parseExpression fuel)))
        (fun _ => pure none)
      match wrapped? with
      | none => pure zeroStmt
      | some wrappedExpression => do
        let current ← getCurrent
        if current.type ≠ TokenType.CloseParenthesis then
          throw (parseErrorTok current "Parenthesis not closed")
        else do
          let _ ← consumeTok
          pure wrappedExpression
    else throw (parseErrorTok token "Unexpected token, expected expression")

/-- The identifier-list loop shared by parseVariableAssign and
parseVariableDeclaration (their Go bodies are identical): `stale` is the
token the Go variable `current` holds when the loop restarts ('(' on entry,
',' after a comma), checked against ')' before refreshing. -/
def parseIdentListLoop (fuel : Nat) (stale : Token)
    (varIdentifiers : List Statement) : ParseM (List Statement) :=
  match fuel with
  | 0 => throw .outOfFuel
  | fuel + 1 => do
    if stale.type = TokenType.CloseParenthesis ∧ varIdentifiers.length > 0 then
      throw (parseErrorTok stale "Unexpected token, expected identifier")
    else do
      let current ← getCurrent
      if current.type ≠ TokenType.Identifier then
        throw (parseErrorTok current "Unexpected token, expected identifier")
      else do
        let identifier ← parsePrimaryExpression fuel
        let varIdentifiers := varIdentifiers ++ [identifier]
        let current ← getCurrent
        if current.type = TokenType.CloseParenthesis then do
          let _ ← consumeTok
          pure varIdentifiers
        else if current.type = TokenType.Comma then do
          let _ ← consumeTok
          parseIdentListLoop fuel current varIdentifiers
        else throw (parseErrorTok current "Unexpected token")

/-- The parenthesised expression-list loop of parseVariableAssign and
parseVariableDeclaration; the two sites differ only in the message of the
final unexpected-token error, passed in.  Returns the list and the ')' token
the Go `current` variable holds at exit. -/
def parseExprListLoop (fuel : Nat) (failMessage : String)
    (acc : List Statement) : ParseM (List Statement × Token) :=
  match fuel with
  | 0 => throw .outOfFuel
  | fuel + 1 => do
    let expression ← parseExpression fuel
    let acc := acc ++ [expression]
    let current ← getCurrent
    if current.type = TokenType.CloseParenthesis then do
      let _ ← consumeTok
      pure (acc, current)
    else if current.type = TokenType.Comma then do
      let _ ← consumeTok
      parseExprListLoop fuel failMessage acc
    else throw (parseErrorTok current failMessage)

/-- The parenthesised type-list loop of parseVariableDeclaration: every
parsed type is rejected if Void.  Returns the list and the exit token. -/
def parseTypeListLoop (fuel : Nat) (acc : List ActualType) :
    ParseM (List ActualType × Token) :=
  match fuel with
  | 0 => throw .outOfFuel
  | fuel + 1 => do
    let current ← getCurrent
    let parsedType ← ofParse (parseType current)
    if parsedType.id = TypeId.Void then
      throw (parseErrorTok current "Cannot declare variable as void")
    else do
      let acc := acc ++ [parsedType]
      let _ ← consumeTok
      let current ← getCurrent
      if current.type = TokenType.CloseParenthesis then do
        let _ ← consumeTok
        pure (acc, current)
      else if current.type = TokenType.Comma then do
        let _ ← consumeTok
        parseTypeListLoop fuel acc
      else throw (parseErrorTok current "Unexpected token, expecting ) or ,")

/-- parser.parseVariableAssign. -/
def parseVariableAssign (fuel : Nat) : ParseM Statement :=
  match fuel with
  | 0 => throw .outOfFuel
  | fuel + 1 => do
    let current ← getCurrent
    let varIdentifiers ←
      if current.type = TokenType.OpenParenthesis then do
        let _ ← consumeTok
        parseIdentListLoop fuel current []
      else do
        if current.type ≠ TokenType.Identifier then
          throw (parseErrorTok current "Expected identifier")
        else do
          let identifier ← parsePrimaryExpression fuel
          pure [identifier]
    let current ← getCurrent
    if current.type = TokenType.Equals then do
      let _ ← consumeTok
      let current ← getCurrent
      let (varExpressions, current) ←
        if current.type = TokenType.OpenParenthesis then do
          let _ ← consumeTok
          let r ← parseExprListLoop fuel "Unexpected token" []
          if varIdentifiers.length = 1 ∧ r.1.length > 1 then
            throw (parseErrorTok r.2
              "Cannot assign multiple expressions to a single variable")
          else pure r
        else do
          if varIdentifiers.length > 1 then
            throw (parseErrorTok current
              "Cannot assign one expression to multiple variables")
          else do
            let expression ← parseExpression fuel
            pure ([expression], current)
      if varIdentifiers.length ≠ varExpressions.length then
        throw (parseErrorTok current "Identifier and expression count mismatch")
      else
        demandNewLineOrSemicolon
          ⟨{ zeroF with
              type := StmtType.VariableAssignment,
              identifiers := varIdentifiers, expressions := varExpressions }⟩
    else throw (parseErrorTok current "Unknown operation on variable")

/-- parser.parseVariableDeclaration.  selfAssignedType is the zero
ActualType and — exactly as in the source — is never reassigned, so the
missing-type check below fires whenever the declaration has no initialiser
expressions, explicit type annotation or not. -/
def parseVariableDeclaration (fuel : Nat) : ParseM Statement :=
  match fuel with
  | 0 => throw .outOfFuel
  | fuel + 1 => do
    let current ← getCurrent
    let isConstant := current.type = TokenType.Const
    let _ ← consumeTok
    let current ← getCurrent
    let varIdentifiers ←
      if current.type = TokenType.OpenParenthesis then do
        let _ ← consumeTok
        parseIdentListLoop fuel current []
      else do
        if current.type ≠ TokenType.Identifier then
          throw (parseErrorTok current "Expected identifier")
        else do
          let identifier ← parsePrimaryExpression fuel
          pure [identifier]
    let current ← getCurrent
    let selfAssignedType := zeroActualType
    let varTypes ←
      if current.type = TokenType.Colon then do
        let _ ← consumeTok
        let current ← getCurrent
        if current.type = TokenType.OpenParenthesis then do
          let _ ← consumeTok
          let r ← parseTypeListLoop fuel []
          if varIdentifiers.length = 1 ∧ r.1.length > 1 then
            throw (parseErrorTok r.2
              "Cannot assign multiple types to a single variable")
          else pure r.1
        else do
          if current.type ≠ TokenType.Identifier then
            throw (parseErrorTok current
              "Expected type for implicit variable declaration")
          else do
            let parsedType ← ofParse (parseType current)
            if parsedType.id = TypeId.Void then
              throw (parseErrorTok current "Cannot declare variable as void")
            else do
              let _ ← consumeTok
              pure [parsedType]
      else pure (List.replicate varIdentifiers.length zeroActualType)
    let current ← getCurrent
    let varExpressions ←
      if current.type = TokenType.Equals then do
        let _ ← consumeTok
        let current ← getCurrent
        if current.type = TokenType.OpenParenthesis then do
          let _ ← consumeTok
          let r ← parseExprListLoop fuel "Unexpected token, expecting ) or ," []
          if varIdentifiers.length = 1 ∧ r.1.length > 1 then
            throw (parseErrorTok r.2
              "Cannot assign multiple expressions to a single variable")
          else pure r.1
        else do
          if varIdentifiers.length > 1 then
            throw (parseErrorTok current
              "Cannot assign one expression to multiple variables")
          else do
            let expression ← parseExpression fuel
            pure [expression]
      else pure []
    let current ← getCurrent
    if selfAssignedType.id = TypeId.Void ∧ varExpressions.length = 0 then
      throw (parseErrorTok current
        "Implicit declaration of type needed when not assigning a value")
    else if varIdentifiers.length ≠ varExpressions.length
        ∧ varExpressions.length > 0 then
      throw (parseErrorTok current "Identifier and expression count mismatch")
    else if varIdentifiers.length ≠ varTypes.length ∧ varTypes.length > 1 then
      throw (parseErrorTok current "Identifier and type count mismatch")
    else
      let varTypes :=
        if varTypes.length = 1 then
          varTypes ++ List.replicate (varExpressions.length - 1)
            (varTypes.getD 0 zeroActualType)
        else varTypes
      demandNewLineOrSemicolon
        ⟨{ zeroF with
            type := StmtType.VariableDeclaration,
            identifiers := varIdentifiers, expressions := varExpressions,
            types := varTypes, constant := isConstant }⟩

/-- parser.getOrMultiGetExpr: (X, X, ..., X) or a single X. -/
def getOrMultiGetExpr (fuel : Nat) : ParseM (List Statement) :=
  match fuel with
  | 0 => throw .outOfFuel
  | fuel + 1 => do
    let current ← getCurrent
    if current.type = TokenType.OpenParenthesis then do
      let _ ← consumeTok
      getOrMultiLoop fuel []
    else do
      let parsed ← parseExpression fuel
      pure [parsed]

/-- The loop of getOrMultiGetExpr; a ')' at an element position (as in "()"
or a trailing comma) is an error. -/
def getOrMultiLoop (fuel : Nat) (result : List Statement) :
    ParseM (List Statement) :=
  match fuel with
  | 0 => throw .outOfFuel
  | fuel + 1 => do
    let current ← getCurrent
    if current.type = TokenType.CloseParenthesis then do
      let _ ← consumeTok
      throw (parseErrorTok current "Unexpected token in ()")
    else do
      let parsed ← parseExpression fuel
      let result := result ++ [parsed]
      let current ← getCurrent
      if current.type = TokenType.CloseParenthesis then do
        let _ ← consumeTok
        pure result
      else if current.type = TokenType.Comma then do
        let _ ← consumeTok
        getOrMultiLoop fuel result
      else throw (parseErrorTok current "Unexpected token in ()")

/-- parser.parseImport. -/
def parseImport (fuel : Nat) : ParseM Statement :=
  match fuel with
  | 0 => throw .outOfFuel
  | fuel + 1 => do
    let token ← consumeTok
    let isNative ← do
      let c ← getCurrent
      if c.type = TokenType.Native then do
        let _ ← consumeTok
        pure true
      else pure false
    let values ← getOrMultiGetExpr fuel
    let strings ← ofParse (valuesToStrings token values)
    demandNewLineOrSemicolon
      ⟨{ zeroF with
          type := StmtType.ImportStatement, argNames := strings,
          native := isNative }⟩

/-- The argument loop of parser.parseFunction: `type name` pairs separated by
commas; no variadic marker is accepted (the lexer's Variadic tokens fail the
identifier check here). -/
def parseFunctionArgs (fuel : Nat) (argTypes : List ActualType)
    (argNames : List String) : ParseM (List ActualType × List String) :=
  match fuel with
  | 0 => throw .outOfFuel
  | fuel + 1 => do
    let current ← getCurrent
    if current.type = TokenType.CloseParenthesis then do
      let _ ← consumeTok
      pure (argTypes, argNames)
    else do
      let argType ← ofParse (parseType current)
      let _ ← consumeTok
      let current ← getCurrent
      if current.type ≠ TokenType.Identifier then
        throw (parseErrorTok current "Expected identifier for argument name")
      else do
        let argName := current.value
        let _ ← consumeTok
        let current ← getCurrent
        let argTypes := argTypes ++ [argType]
        let argNames := argNames ++ [argName]
        if current.type = TokenType.CloseParenthesis then do
          let _ ← consumeTok
          pure (argTypes, argNames)
        else if current.type = TokenType.Comma then do
          let _ ← consumeTok
          parseFunctionArgs fuel argTypes argNames
        else
          throw (parseErrorTok current
            "Unexpected token in function argument declaration")

/-- The multi-return-type loop of parser.parseFunction; "-> ()" and a
trailing comma are errors. -/
def parseFnReturnLoop (fuel : Nat) (returnTypes : List ActualType) :
    ParseM (List ActualType) :=
  match fuel with
  | 0 => throw .outOfFuel
  | fuel + 1 => do
    let current ← getCurrent
    if current.type = TokenType.CloseParenthesis then do
      let _ ← consumeTok
      throw (parseErrorTok current "Unexpected token, expected type")
    else do
      let returnType ← ofParse (parseType current)
      let returnTypes := returnTypes ++ [returnType]
      let _ ← consumeTok
      let current ← getCurrent
      if current.type = TokenType.CloseParenthesis then do
        let _ ← consumeTok
        pure returnTypes
      else if current.type = TokenType.Comma then do
        let _ ← consumeTok
        parseFnReturnLoop fuel returnTypes
      else
        throw (parseErrorTok current
          "Unexpected token in function return type declaration")

/-- parser.parseFunction.  A native function must not have a body (its
RunScope stays the zero Statement); a non-native one requires one. -/
def parseFunction (fuel : Nat) : ParseM Statement :=
  match fuel with
  | 0 => throw .outOfFuel
  | fuel + 1 => do
    let _ ← consumeTok
    let current ← getCurrent
    let isNative ←
      if current.type = TokenType.Native then do
        let _ ← consumeTok
        pure true
      else pure false
    let current ← getCurrent
    if current.type ≠ TokenType.Identifier then
      throw (parseErrorTok current "Function has invalid identifier")
    else do
      let functionName := (← consumeTok).value
      let current ← getCurrent
      if current.type ≠ TokenType.OpenParenthesis then
        throw (parseErrorTok current "Function is missing (")
      else do
        let _ ← consumeTok
        let args ← parseFunctionArgs fuel [] []
        let current ← getCurrent
        let returnTypes ←
          if current.type = TokenType.ArrowRight then do
            let _ ← consumeTok
            let current ← getCurrent
            if current.type = TokenType.OpenParenthesis then do
              let _ ← consumeTok
              parseFnReturnLoop fuel []
            else do
              let returnType ← ofParse (parseType current)
              let _ ← consumeTok
              pure [returnType]
          else pure [(⟨TypeId.Void, ""⟩ : ActualType)]
        let current ← getCurrent
        if isNative ∧ current.type = TokenType.OpenCurlyBracket then
          throw (parseErrorTok current "Native function cannot define a scope")
        else do
          let scope ←
            if !isNative then
              if current.type ≠ TokenType.OpenCurlyBracket then
                throw (parseErrorTok current "Expected new scope for function")
              else parseScope fuel
            else pure zeroStmt
          pure ⟨{ zeroF with
              type := StmtType.FunctionDeclaration, value := functionName,
              argTypes := args.1, argNames := args.2, types := returnTypes,
              runScope := some scope, native := isNative }⟩

/-- parser.parseScope.  The not-closed arm of the Go source is unreachable
(at the end of input parseStatement fails on the zero/EOF token first), so
the loop exits only by the closing brace or an error. -/
def parseScope (fuel : Nat) : ParseM Statement :=
  match fuel with
  | 0 => throw .outOfFuel
  | fuel + 1 => do
    let current ← getCurrent
    if current.type ≠ TokenType.OpenCurlyBracket then
      throw (parseErrorTok current "Scope needs to be opened with \x7b")
    else do
      let _ ← consumeTok
      let children ← parseScopeLoop fuel []
      pure ⟨{ zeroF with type := StmtType.ScopeDeclaration, children := children }⟩

/-- The statement loop of parser.parseScope, with processStatement applied
as in ParseTokens' own loop. -/
def parseScopeLoop (fuel : Nat) (children : List Statement) :
    ParseM (List Statement) :=
  match fuel with
  | 0 => throw .outOfFuel
  | fuel + 1 => do
    let current ← getCurrent
    if current.type = TokenType.CloseCurlyBracket then do
      let _ ← consumeTok
      pure children
    else do
      let statement ← parseStatement fuel
      let r := processStatement current statement
      if r.1 then parseScopeLoop fuel children
      else parseScopeLoop fuel (children ++ [r.2])

/-- The top-level loop of parser.ParseTokens. -/
def parseRootLoop (fuel : Nat) (children : List Statement) :
    ParseM (List Statement) :=
  match fuel with
  | 0 => throw .outOfFuel
  | fuel + 1 => do
    if (← get).isDone then pure children
    else do
      let current ← getCurrent
      let statement ← parseStatement fuel
      let r := processStatement current statement
      if r.1 then parseRootLoop fuel children
      else parseRootLoop fuel (children ++ [r.2])

end

/-- parser.ParseTokens: parse statements until EOF into a Root node.  The
fuel bound is far above the recursion depth on any token list this
development evaluates (the Go recursion consumes at least one token per
statement and nests at most a few frames per token). -/
def ParseTokens (tokens : List Token) : Except PErr Statement :=
  match parseRootLoop (8 * tokens.length + 64) [] ⟨tokens, 0⟩ with
  | .error e => .error e
  | .ok (children, _) =>
    .ok ⟨{ zeroF with type := StmtType.Root, children := children }⟩

/-! Context builder (context/builder.go): the dead-variable scan and
deallocation insertion (generateAndCleanUp with isUsingVariable), and type
inference (inferType / inferBinaryType).  context.StaticError carries the
message and the nearest trace. -/

/-- context.StaticError (message verbatim, trace structured; the Sprintf
suffix with the statement dump is elided as everywhere in this file). -/
structure StaticErr where
  message : String
  trace : SourceTrace
deriving DecidableEq, Repr

/-- context.fail. -/
def fail (statement : Statement) (message : String) : StaticErr :=
  ⟨message, statement.f.trace⟩

/-- context.isUsingVariable: structural scan for a use of the variable's
name; declarations and assignments count through their identifier lists, so
a declaration of the variable itself is a "use".  Only the variable's name
is consulted.  (Go dereferences Left/Right unconditionally in the binary
case; a nil operand would crash there and is read as "no use" here.) -/
def isUsingVariable (statement : Statement) (v : ScopeVar) : Bool :=
  if statement.f.type = StmtType.VariableDeclaration
      ∨ statement.f.type = StmtType.VariableAssignment then
    statement.f.identifiers.attach.any (fun x => isUsingVariable x.1 v)
      || statement.f.expressions.attach.any (fun x => isUsingVariable x.1 v)
  else if statement.f.type = StmtType.BinaryExpression then
    (match h : statement.f.left with
     | some l => isUsingVariable l v
     | none => false)
    || (match h : statement.f.right with
        | some r => isUsingVariable r v
        | none => false)
  else if statement.f.type = StmtType.IdentifierExpression then
    v.varName == statement.f.value
  else false
termination_by sizeOf statement
decreasing_by
  · exact sizeOf_lt_of_mem_identifiers x.2
  · exact sizeOf_lt_of_mem_expressions x.2
  · exact sizeOf_lt_of_left h
  · exact sizeOf_lt_of_right h

/-- The per-variable scan of generateAndCleanUp: last index of use, total
count of using children, and the first using child (for the error trace). -/
structure ScanRes where
  last : Int
  count : Nat
  first : Statement

/-- The child loop of generateAndCleanUp for one variable, mirroring the Go
loop (firstUsage is recorded when the count reaches 1). -/
def scanUsageAux (v : ScopeVar) (children : List Statement) (i : Nat)
    (last : Int) (count : Nat) (first : Statement) : ScanRes :=
  match children with
  | [] => ⟨last, count, first⟩
  | c :: rest =>
    if isUsingVariable c v then
      scanUsageAux v rest (i + 1) (i : Int) (count + 1)
        (if count + 1 = 1 then c else first)
    else scanUsageAux v rest (i + 1) last count first

def scanUsage (v : ScopeVar) (children : List Statement) : ScanRes :=
  scanUsageAux v children 0 (-1) 0 zeroStmt

/-- The MemoryDeAllocation node generateAndCleanUp creates (Type, Context and
ContextVariable set, everything else zero). -/
def deallocStmt (scope : Scope) (cv : ScopeVar) : Statement :=
  ⟨{ zeroF with
      type := StmtType.MemoryDeAllocation, context := scope,
      contextVariable := some cv }⟩

/-- The insertion at the end of generateAndCleanUp's loop body: append when
the index is the length, otherwise shift-insert at the index.  (An index
beyond the length would panic in Go and is unreachable: the index is at most
the last usage index plus the running offset, which the loop keeps within
the list.) -/
def insertChild (children : List Statement) (index : Nat) (stmt : Statement) :
    List Statement :=
  if index = children.length then children ++ [stmt]
  else children.take index ++ [stmt] ++ children.drop index

/-- The variable loop of context.generateAndCleanUp.  In the source,
`children := parent.Children` is captured before this loop, so every
variable's usage scan reads the original child list (children0) while the
inserted deallocations accumulate in the parent's evolving list (cur); the
running offset converts original indices to evolving ones. -/
def gacLoop (scope : Scope) (children0 : List Statement)
    (vars : List ScopeVar) (offset : Nat) (cur : List Statement) :
    Except StaticErr (List Statement) :=
  match vars with
  | [] => .ok cur
  | v :: rest =>
    let scan := scanUsage v children0
    if scan.count ≤ 1 ∧ v.varOfFunction = false then
      .error (fail scan.first ("Unused variable " ++ v.varName))
    else
      let stmt := deallocStmt scope v
      let index := (scan.last + (offset : Int)).toNat
      gacLoop scope children0 rest (offset + 1) (insertChild cur index stmt)

/-- context.generateAndCleanUp: scan every variable of the scope in
declaration order; fail on the first unused non-parameter variable,
otherwise splice one MemoryDeAllocation per variable after its last use
(offset starts at 1: "de-allocate after index"). -/
def generateAndCleanUp (scope : Scope) (parentChildren : List Statement) :
    Except StaticErr (List Statement) :=
  gacLoop scope parentChildren scope.vars 1 parentChildren

mutual

/-- context.inferType.  The empty `if value[0] != '-' {}` block of the
source has no effect and is omitted (it would only panic in Go on an empty
number lexeme, which the lexer never produces). -/
def inferType (scope : Scope) (expression : Statement)
    (statement : Statement) : Except StaticErr ActualType :=
  if expression.f.type = StmtType.NumberLiteral then
    if expression.f.value.toList.contains '.' then .ok ⟨TypeId.Float32, ""⟩
    else .ok ⟨TypeId.Int32, ""⟩
  else if expression.f.type = StmtType.BooleanLiteral then .ok ⟨TypeId.Bool, ""⟩
  else if expression.f.type = StmtType.StringLiteral then .ok ⟨TypeId.String, ""⟩
  else if expression.f.type = StmtType.IdentifierExpression then
    match scope.getVariable expression.f.value with
    | none =>
      .error (fail statement ("Undefined identifier " ++ expression.f.value))
    | some scopeVariable => .ok scopeVariable.varType
  else if expression.f.type = StmtType.BinaryExpression then
    inferBinaryType scope expression
  else if expression.f.type = StmtType.FunctionExpression then
    match scope.getFunction expression.f.value with
    | none =>
      .error (fail statement ("Undefined function " ++ expression.f.value))
    | some function =>
      if function.fnTypes.length = 0 then
        .error (fail statement
          ("Function " ++ expression.f.value ++ " does not return any value"))
      else if function.fnTypes.length > 1 then
        .error (fail statement
          ("Function " ++ expression.f.value
            ++ " returns multiple values, can only accept one"))
      else .ok (function.fnTypes.getD 0 zeroActualType)
  else .error (fail statement "Undefined type")
termination_by (sizeOf expression, 1)
decreasing_by
  · exact Prod.Lex.right _ (by omega)

/-- context.inferBinaryType: infer both operands; mismatched ids fail
("Cannot combine types TODO ADD SUPPORT LATER"), matching ids combine to the
left operand's type.  (The source reports the "Left side could not be
dereferenced" message for a nil right operand too.) -/
def inferBinaryType (scope : Scope) (statement : Statement) :
    Except StaticErr ActualType :=
  match h : statement.f.left with
  | none => .error (fail statement "Left side could not be dereferenced")
  | some l =>
    match inferType scope l statement with
    | .error e => .error e
    | .ok leftType =>
      match h2 : statement.f.right with
      | none => .error (fail statement "Left side could not be dereferenced")
      | some r =>
        match inferType scope r statement with
        | .error e => .error e
        | .ok rightType =>
          if leftType.id ≠ rightType.id then
            .error (fail statement "Cannot combine types TODO ADD SUPPORT LATER")
          else .ok leftType
termination_by (sizeOf statement, 0)
decreasing_by
  · exact Prod.Lex.left _ _ (sizeOf_lt_of_left h)
  · exact Prod.Lex.left _ _ (sizeOf_lt_of_right h2)

end

/-- parser.getCommonTypeId (unnamed/part_002): equal ids are their own meet;
otherwise ids at or below Custom in the ranking cannot be combined (Void is
returned), and the meet of two higher-ranked ids is the larger one. -/
def getCommonTypeId (t1 : ActualType) (t2 : ActualType) : TypeId :=
  let id1 := t1.id
  let id2 := t2.id
  if id1 = id2 then id1
  else
    let smallest := min id1 id2
    let biggest := max id1 id2
    if smallest ≤ TypeId.Custom then TypeId.Void
    else biggest

/-! C emitter (unnamed/part_009): the compiler state, the include
registry, and compileMemoryDeAllocation; the includes region that CompileC
prefixes to the output. -/

/-- compiler (the emitter state). -/
structure compiler where
  head : String
  prepend : String
  indent : Int
  booleanImported : Bool
  imports : List String
deriving DecidableEq, Repr

/-- CompileC starts with compiler{indent: -1}. -/
def initialCompiler : compiler := ⟨"", "", -1, false, []⟩

/-- compiler.cImportLib: register an include path unless already present. -/
def cImportLib (cl : compiler) (path : String) : compiler :=
  if path ∈ cl.imports then cl
  else { cl with imports := cl.imports ++ [path] }

/-- The indent helper of the emitter: four spaces per level, none for a
non-positive level. -/
def indent (cl : compiler) : String :=
  String.join (List.replicate cl.indent.toNat "    ")

/-- compiler.compileMemoryDeAllocation: nothing when the variable's
ALLOCATED flag is set (the source carries a "todo flip logic" comment
here), otherwise register stdlib.h and emit free(name);.  (Go dereferences
statement.ContextVariable; a nil one would crash there, and every
context-built deallocation node carries its variable.) -/
def compileMemoryDeAllocation (cl : compiler) (statement : Statement) :
    String × compiler :=
  match statement.f.contextVariable with
  | some v =>
    if v.ALLOCATED then ("", cl)
    else
      let cl := cImportLib cl "stdlib.h"
      (indent cl ++ "free(" ++ v.varName ++ ");", cl)
  | none => ("", cl)

/-- The includes region CompileC renders in front of head, prepend and the
body: one #include directive per registered path, in registration order. -/
def renderImports (imports : List String) : String :=
  imports.foldl (fun acc i => acc ++ "#include \"" ++ i ++ "\"\n") ""

/-! Concrete fixtures and helpers used by the claim theorems. -/

/-- A deallocation-marked variable named x with the ALLOCATED flag set. -/
def xVarAlloc : ScopeVar := ⟨⟨TypeId.Int32, ""⟩, "x", false, false, true⟩

/-- The same variable with the ALLOCATED flag clear. -/
def xVarUnalloc : ScopeVar := ⟨⟨TypeId.Int32, ""⟩, "x", false, false, false⟩

/-- An emitter state at indent level 0 with nothing registered. -/
def cl0 : compiler := ⟨"", "", 0, false, []⟩

/-- The ParseError message the pipeline (Tokenize then ParseTokens) stops
with on a source, if it stops with one. -/
def parseErrMessage (source : String) : Option String :=
  match Tokenize source.toList with
  | .error _ => none
  | .ok tokens =>
    match ParseTokens tokens with
    | .error e => e.message?
    | .ok _ => none

/-- C1: For every MemoryDeAllocation node reaching the C emitter,
compileMemoryDeAllocation emits `free(<name>);` (and lazily adds the
stdlib.h include) exactly when the referenced variable's allocated flag is
set, and emits the empty string when the flag is not set.  The code does the
opposite: with ALLOCATED set it emits nothing, and with ALLOCATED clear it
emits free(x); and registers stdlib.h — the inversion its own "todo flip
logic" comment and the ALLOCATED field's doc comment ("true if to
deallocate in c compiler!") mark as a slip.  This theorem evaluates the
emitter at both flag values. -/
theorem C1_compileMemoryDeAllocation_inverted :
    xVarAlloc.ALLOCATED = true
    ∧ (compileMemoryDeAllocation cl0 (deallocStmt zeroScope xVarAlloc)).1 = ""
    ∧ xVarUnalloc.ALLOCATED = false
    ∧ (compileMemoryDeAllocation cl0 (deallocStmt zeroScope xVarUnalloc)).1
        = "free(x);"
    ∧ (compileMemoryDeAllocation cl0 (deallocStmt zeroScope xVarUnalloc)).2.imports
        = ["stdlib.h"] := by
  refine ⟨rfl, rfl, rfl, rfl, rfl⟩

/-- C6: For any two ActualTypes, getCommonTypeId returns their shared TypeId
when the ids are equal; when they differ and both ids rank above Custom in
the TypeId ordering, it returns the larger TypeId; and when either operand
is Bool or Custom (or Void) — that is, the smaller id is at most Custom —
the meet fails, producing the Void sentinel rather than a widened type. -/
theorem C6_getCommonTypeId_spec (t1 t2 : ActualType) :
    (t1.id = t2.id → getCommonTypeId t1 t2 = t1.id)
    ∧ (t1.id ≠ t2.id → TypeId.Custom < min t1.id t2.id →
        getCommonTypeId t1 t2 = max t1.id t2.id)
    ∧ (t1.id ≠ t2.id → min t1.id t2.id ≤ TypeId.Custom →
        getCommonTypeId t1 t2 = TypeId.Void) := by
  refine ⟨fun h => ?_, fun h hgt => ?_, fun h hle => ?_⟩
  · simp [getCommonTypeId, h]
  · rw [getCommonTypeId]
    simp only [if_neg h]
    rw [if_neg (not_le.mpr hgt)]
  · rw [getCommonTypeId]
    simp only [if_neg h]
    rw [if_pos hle]

/-- Closed instance of C6's theorem at Int32 and Int64: distinct ids above
Custom meet at the larger id. -/
theorem C6_witness :
    (⟨TypeId.Int32, ""⟩ : ActualType).id ≠ (⟨TypeId.Int64, ""⟩ : ActualType).id
    ∧ TypeId.Custom
        < min (⟨TypeId.Int32, ""⟩ : ActualType).id (⟨TypeId.Int64, ""⟩ : ActualType).id
    ∧ getCommonTypeId ⟨TypeId.Int32, ""⟩ ⟨TypeId.Int64, ""⟩
        = max (⟨TypeId.Int32, ""⟩ : ActualType).id (⟨TypeId.Int64, ""⟩ : ActualType).id :=
  ⟨by decide, by decide,
    (C6_getCommonTypeId_spec ⟨TypeId.Int32, ""⟩ ⟨TypeId.Int64, ""⟩).2.1
      (by decide) (by decide)⟩

set_option maxRecDepth 40000 in
/-- C4: parseVariableDeclaration is claimed to accept a declaration with an
explicit non-void type and no initialiser, to fail when neither type nor
value is given, and to fail on any void declared type.  The last two hold,
but the first does not: the local selfAssignedType that the missing-type
check consults is initialised to the zero ActualType (id Void) and never
reassigned when a type annotation is parsed, so `var x : int32` without an
initialiser is rejected with the same "Implicit declaration of type needed
when not assigning a value" error as a type-less `var x`.  This theorem
evaluates the parser at the failing input and at the claim's other cases. -/
theorem C4_typed_decl_without_value_rejected :
    parseErrMessage "var x : int32"
      = some "Implicit declaration of type needed when not assigning a value"
    ∧ parseErrMessage "var x"
      = some "Implicit declaration of type needed when not assigning a value"
    ∧ parseErrMessage "var x : void = 1"
      = some "Cannot declare variable as void"
    ∧ parseErrMessage "var (a, b) : (int32, void) = (1, 2)"
      = some "Cannot declare variable as void"
    ∧ parseErrMessage "var x : int32 = 5\n" = none := by
  refine ⟨?_, ?_, ?_, ?_, ?_⟩ <;> rfl

set_option maxRecDepth 40000 in
/-- C8: The input `import native "stdio.h"` followed by
`fn native printf(string..?) -> int` is claimed to compile and to emit the
include and a body-less printf.  The pipeline in the source cannot parse it:
parseFunction's argument loop has no variadic handling, so after the
argument type it demands an identifier and fails on the `..?` token with
"Expected identifier for argument name" (and the emitter's compile switch
has no ImportStatement case, so even the import alone would emit an
"UNKNOWN STATEMENT" comment rather than an include).  This theorem runs the
embedded pipeline on the exact input. -/
theorem C8_native_import_pipeline_fails :
    parseErrMessage "import native \"stdio.h\"\nfn native printf(string..?) -> int"
      = some "Expected identifier for argument name" := by
  rfl

/-- Registering a path makes it a member of the include list. -/
theorem mem_cImportLib (cl : compiler) (p : String) :
    p ∈ (cImportLib cl p).imports := by
  unfold cImportLib
  split
  · assumption
  · simp

/-- Registering an already-present path is the identity on the state. -/
theorem cImportLib_mem_eq (cl : compiler) (p : String) (h : p ∈ cl.imports) :
    cImportLib cl p = cl := by
  unfold cImportLib
  rw [if_pos h]

/-- Registration preserves duplicate-freedom of the include list. -/
theorem cImportLib_nodup (cl : compiler) (p : String)
    (h : cl.imports.Nodup) : ((cImportLib cl p).imports).Nodup := by
  unfold cImportLib
  split
  · exact h
  · next hmem => simp [List.nodup_append, h, hmem]

/-- Any registration sequence from a duplicate-free state stays
duplicate-free. -/
theorem foldl_cImportLib_nodup :
    ∀ (paths : List String) (cl : compiler), cl.imports.Nodup →
      ((paths.foldl cImportLib cl).imports).Nodup := by
  intro paths
  induction paths with
  | nil => intro cl h; simpa using h
  | cons p rest ih => intro cl h; exact ih _ (cImportLib_nodup cl p h)

/-- C9: The emitter's include list is duplicate-free: registering a path
already present leaves the compiler state unchanged (so cImportLib is
idempotent), registration preserves Nodup, any sequence of cImportLib calls
from CompileC's initial state yields a Nodup include list, and the includes
region renders exactly one #include directive per registered entry in
order — so each distinct path appears at most once in it. -/
theorem C9_cImportLib_dedup (cl : compiler) (p : String) :
    (p ∈ cl.imports → cImportLib cl p = cl)
    ∧ cImportLib (cImportLib cl p) p = cImportLib cl p
    ∧ (cl.imports.Nodup → ((cImportLib cl p).imports).Nodup)
    ∧ (∀ paths : List String,
        ((paths.foldl cImportLib initialCompiler).imports).Nodup)
    ∧ (∀ (l : List String) (q : String),
        renderImports (l ++ [q])
          = renderImports l ++ ("#include \"" ++ q ++ "\"\n")) := by
  refine ⟨fun h => cImportLib_mem_eq cl p h,
    cImportLib_mem_eq _ p (mem_cImportLib cl p),
    fun h => cImportLib_nodup cl p h,
    fun paths => foldl_cImportLib_nodup paths initialCompiler (by simp [initialCompiler]),
    fun l q => by simp [renderImports, List.foldl_append, String.append_assoc]⟩

/-- An emitter state that has already registered stdlib.h. -/
def cl1 : compiler := ⟨"", "", 0, false, ["stdlib.h"]⟩

/-- Closed instance of C9's theorem: re-registering stdlib.h on a state that
holds it changes nothing. -/
theorem C9_witness :
    "stdlib.h" ∈ cl1.imports ∧ cImportLib cl1 "stdlib.h" = cl1 :=
  ⟨by decide, (C9_cImportLib_dedup cl1 "stdlib.h").1 (by decide)⟩

/-- Decidable equality on Except results, for evaluating the embedded
functions at concrete inputs. -/
instance {e a : Type} [DecidableEq e] [DecidableEq a] : DecidableEq (Except e a)
  | .ok x, .ok y =>
    if h : x = y then .isTrue (by rw [h])
    else .isFalse (by intro hc; injection hc; contradiction)
  | .ok x, .error y => .isFalse (by intro hc; cases hc)
  | .error x, .ok y => .isFalse (by intro hc; cases hc)
  | .error x, .error y =>
    if h : x = y then .isTrue (by rw [h])
    else .isFalse (by intro hc; injection hc; contradiction)

/-- C5: For inferBinaryType on any BinaryExpression whose operands infer to
t1 and t2: if the inferred TypeIds differ, inference fails with the
type-mismatch error; if they are equal, the expression's type is the left
operand's type t1. -/
theorem C5_inferBinaryType_spec (scope : Scope) (s l r : Statement)
    (t1 t2 : ActualType)
    (hbin : s.f.type = StmtType.BinaryExpression)
    (hl : s.f.left = some l) (hr : s.f.right = some r)
    (h1 : inferType scope l s = .ok t1) (h2 : inferType scope r s = .ok t2) :
    (t1.id = t2.id → inferBinaryType scope s = .ok t1)
    ∧ (t1.id ≠ t2.id →
        inferBinaryType scope s
          = .error (fail s "Cannot combine types TODO ADD SUPPORT LATER")) := by
  have key : inferBinaryType scope s
      = if t1.id ≠ t2.id then
          .error (fail s "Cannot combine types TODO ADD SUPPORT LATER")
        else .ok t1 := by
    rw [inferBinaryType.eq_def]
    split
    · next heq => rw [hl] at heq; cases heq
    · next l2 heq =>
      rw [hl] at heq
      injection heq with heq
      subst heq
      rw [h1]
      split
      · next e heq2 => cases heq2
      · next lt heq2 =>
        injection heq2 with heq2
        subst heq2
        split
        · next heq3 => rw [hr] at heq3; cases heq3
        · next r2 heq3 =>
          rw [hr] at heq3
          injection heq3 with heq3
          subst heq3
          rw [h2]
  refine ⟨fun heq => ?_, fun hne => ?_⟩
  · rw [key, if_neg (by simp [heq])]
  · rw [key, if_pos hne]

/-- The number literal 1. -/
def numLitOne : Statement :=
  ⟨{ zeroF with type := StmtType.NumberLiteral, value := "1" }⟩

/-- The number literal 2. -/
def numLitTwo : Statement :=
  ⟨{ zeroF with type := StmtType.NumberLiteral, value := "2" }⟩

/-- The binary expression 1 + 2. -/
def binOnePlusTwo : Statement :=
  ⟨{ zeroF with
      type := StmtType.BinaryExpression, left := some numLitOne,
      right := some numLitTwo, operator := AdditionOperation }⟩

/-- Closed instance of C5's theorem at 1 + 2: both operands infer to Int32,
so the combined type is the left operand's Int32. -/
theorem C5_witness :
    inferType zeroScope numLitOne binOnePlusTwo = .ok ⟨TypeId.Int32, ""⟩
    ∧ inferType zeroScope numLitTwo binOnePlusTwo = .ok ⟨TypeId.Int32, ""⟩
    ∧ inferBinaryType zeroScope binOnePlusTwo = .ok ⟨TypeId.Int32, ""⟩ := by
  have h1 : inferType zeroScope numLitOne binOnePlusTwo = .ok ⟨TypeId.Int32, ""⟩ := by
    rw [inferType.eq_def]; decide
  have h2 : inferType zeroScope numLitTwo binOnePlusTwo = .ok ⟨TypeId.Int32, ""⟩ := by
    rw [inferType.eq_def]; decide
  exact ⟨h1, h2,
    (C5_inferBinaryType_spec zeroScope binOnePlusTwo numLitOne numLitTwo
      ⟨TypeId.Int32, ""⟩ ⟨TypeId.Int32, ""⟩ rfl rfl rfl h1 h2).1 rfl⟩

/-! Claims C2 and C3: the dead-variable scan and deallocation insertion. -/

/-- The number of child statements that use the variable, per
isUsingVariable — the quantity generateAndCleanUp's scan counts. -/
def usageCount (children : List Statement) (v : ScopeVar) : Nat :=
  children.countP (fun c => isUsingVariable c v)

/-- Recognises a MemoryDeAllocation node referencing the given variable. -/
def isDeallocFor (v : ScopeVar) (s : Statement) : Bool :=
  s.f.type == StmtType.MemoryDeAllocation && s.f.contextVariable == some v

/-- The scan's count component is the number of using children. -/
theorem scanUsageAux_count (v : ScopeVar) :
    ∀ (l : List Statement) (i : Nat) (last : Int) (count : Nat)
      (first : Statement),
      (scanUsageAux v l i last count first).count
        = count + l.countP (fun c => isUsingVariable c v) := by
  intro l
  induction l with
  | nil => intro i last count first; simp [scanUsageAux]
  | cons c rest ih =>
    intro i last count first
    rw [scanUsageAux]
    split
    · next hc => rw [ih, List.countP_cons, hc]; simp; omega
    · next hc =>
      rw [ih, List.countP_cons]
      simp only [Bool.not_eq_true] at hc
      rw [hc]
      simp

theorem scanUsage_count (v : ScopeVar) (children : List Statement) :
    (scanUsage v children).count = usageCount children v := by
  rw [scanUsage, scanUsageAux_count, usageCount]
  omega

/-- Inserting one statement adds its own contribution to any count. -/
theorem countP_insertChild (p : Statement → Bool) (l : List Statement)
    (index : Nat) (s : Statement) :
    (insertChild l index s).countP p = l.countP p + (if p s then 1 else 0) := by
  unfold insertChild
  split
  · rw [List.countP_append, List.countP_cons, List.countP_nil]
    cases hps : p s <;> simp [hps]
  · conv_rhs => rw [← List.take_append_drop index l]
    rw [List.countP_append, List.countP_append, List.countP_append,
      List.countP_cons, List.countP_nil]
    cases hps : p s <;> simp [hps] <;> omega

/-- A created deallocation node references exactly its variable. -/
theorem isDeallocFor_deallocStmt (v w : ScopeVar) (sc : Scope) :
    isDeallocFor v (deallocStmt sc w) = (w == v) := by
  simp [isDeallocFor, deallocStmt, Statement.f, zeroF]

/-- When the variable loop succeeds, each variable's deallocation count grew
by its multiplicity in the processed list. -/
theorem gacLoop_ok_count (scope : Scope) (children0 : List Statement) :
    ∀ (vars : List ScopeVar) (offset : Nat) (cur res : List Statement),
      gacLoop scope children0 vars offset cur = .ok res →
      ∀ v : ScopeVar,
        res.countP (isDeallocFor v) = cur.countP (isDeallocFor v) + vars.count v := by
  intro vars
  induction vars with
  | nil =>
    intro offset cur res h v
    rw [gacLoop] at h
    injection h with h
    simp [← h]
  | cons w rest ih =>
    intro offset cur res h v
    rw [gacLoop] at h
    split at h
    · cases h
    · rw [ih _ _ _ h v, countP_insertChild, isDeallocFor_deallocStmt,
        List.count_cons]
      omega

/-- C2 (amended): after a successful generateAndCleanUp pass over a scope
whose variable table is duplicate-free and whose child list held no
deallocation nodes yet, the resulting child list contains exactly one
MemoryDeAllocation node for every variable declared in the scope — function
parameters included, since the VarOfFunction flag only exempts a variable
from the unused check, not from deallocation insertion. -/
theorem C2_dealloc_exactly_one_per_var (scope : Scope)
    (children res : List Statement)
    (hok : generateAndCleanUp scope children = .ok res)
    (hnodup : scope.vars.Nodup)
    (hnone : ∀ s ∈ children, s.f.type ≠ StmtType.MemoryDeAllocation) :
    ∀ v ∈ scope.vars, res.countP (isDeallocFor v) = 1 := by
  intro v hv
  have hcount := gacLoop_ok_count scope children scope.vars 1 children res hok v
  have hzero : children.countP (isDeallocFor v) = 0 := by
    apply List.countP_eq_zero.mpr
    intro s hs
    simp [isDeallocFor, hnone s hs]
  have hone : scope.vars.count v = 1 := List.count_eq_one_of_mem hnodup hv
  rw [hcount, hzero, hone]

/-- A function-parameter variable, as analyzeScopeDeclaration injects them
(constant, VarOfFunction set, not allocated). -/
def pVar : ScopeVar := ⟨⟨TypeId.Int32, ""⟩, "p", true, true, false⟩

/-- A scope holding only the parameter variable. -/
def paramScope : Scope := .mk none [pVar] [] []

/-- The deallocation count for a variable in a cleanup result. -/
def cntDealloc (r : Except StaticErr (List Statement)) (v : ScopeVar) :
    Option Nat :=
  match r with
  | .ok res => some (res.countP (isDeallocFor v))
  | .error _ => none

/-- C2 is false as stated: on a scope holding one function-parameter
variable, generateAndCleanUp succeeds and the child list ends up holding
one MemoryDeAllocation node referencing the parameter, not zero. -/
theorem C2_counterexample_param_gets_dealloc :
    pVar.varOfFunction = true
    ∧ cntDealloc (generateAndCleanUp paramScope []) pVar = some 1 := by
  decide

/-- Closed instance of C2's amended theorem at the parameter scope. -/
theorem C2_witness :
    generateAndCleanUp paramScope [] = .ok [deallocStmt paramScope pVar]
    ∧ List.countP (isDeallocFor pVar) [deallocStmt paramScope pVar] = 1 :=
  ⟨rfl,
    C2_dealloc_exactly_one_per_var paramScope [] [deallocStmt paramScope pVar]
      rfl (by decide) (by simp) pVar (by decide)⟩

/-- An error from the variable loop is always an unused-variable report
naming a variable of the list that is indeed used at most once and is not a
function parameter. -/
theorem gacLoop_error_unused (scope : Scope) (children0 : List Statement) :
    ∀ (vars : List ScopeVar) (offset : Nat) (cur : List Statement)
      (e : StaticErr),
      gacLoop scope children0 vars offset cur = .error e →
      ∃ w ∈ vars, e.message = "Unused variable " ++ w.varName
        ∧ usageCount children0 w ≤ 1 ∧ w.varOfFunction = false := by
  intro vars
  induction vars with
  | nil => intro offset cur e h; rw [gacLoop] at h; cases h
  | cons w rest ih =>
    intro offset cur e h
    rw [gacLoop] at h
    split at h
    · next hc =>
      injection h with h
      refine ⟨w, List.mem_cons_self w rest, ?_, ?_, hc.2⟩
      · rw [← h, fail]
      · rw [← scanUsage_count]; exact hc.1
    · next hc =>
      obtain ⟨w2, hmem, hrest⟩ := ih _ _ _ h
      exact ⟨w2, List.mem_cons_of_mem w hmem, hrest⟩

/-- An unused non-parameter variable anywhere in the list forces the loop to
fail. -/
theorem gacLoop_error_of_unused (scope : Scope) (children0 : List Statement) :
    ∀ (vars : List ScopeVar) (offset : Nat) (cur : List Statement),
      (∃ v ∈ vars, usageCount children0 v ≤ 1 ∧ v.varOfFunction = false) →
      ∃ e, gacLoop scope children0 vars offset cur = .error e := by
  intro vars
  induction vars with
  | nil => intro offset cur h; obtain ⟨v, hv, _⟩ := h; cases hv
  | cons w rest ih =>
    intro offset cur h
    rw [gacLoop]
    split
    · exact ⟨_, rfl⟩
    · next hc =>
      obtain ⟨v, hv, hcnt, hfn⟩ := h
      rcases List.mem_cons.mp hv with hv | hv
      · subst hv
        exact absurd ⟨by rw [scanUsage_count]; exact hcnt, hfn⟩ hc
      · exact ih _ _ ⟨v, hv, hcnt, hfn⟩

/-- When every non-parameter variable is used at least twice, the loop
succeeds. -/
theorem gacLoop_ok_of_used (scope : Scope) (children0 : List Statement) :
    ∀ (vars : List ScopeVar) (offset : Nat) (cur : List Statement),
      (∀ v ∈ vars, v.varOfFunction = false → 2 ≤ usageCount children0 v) →
      ∃ res, gacLoop scope children0 vars offset cur = .ok res := by
  intro vars
  induction vars with
  | nil => intro offset cur _; exact ⟨cur, rfl⟩
  | cons w rest ih =>
    intro offset cur h
    rw [gacLoop]
    split
    · next hc =>
      have := h w (List.mem_cons_self w rest) hc.2
      rw [← scanUsage_count] at this
      omega
    · exact ih _ _ (fun v hv => h v (List.mem_cons_of_mem w hv))

/-- C3: In every scope the context builder analyses, if some variable
declared there is used (per isUsingVariable, which counts the declaration
itself) in at most one child statement and is not a function parameter,
generateAndCleanUp fails, and its error is an "Unused variable" report
naming a variable that is indeed used at most once and is not a parameter;
when every non-parameter variable is used at least twice, no
unused-variable error is raised at all. -/
theorem C3_unused_variable_check (scope : Scope) (children : List Statement) :
    ((∃ v ∈ scope.vars, usageCount children v ≤ 1 ∧ v.varOfFunction = false) →
      ∃ e, generateAndCleanUp scope children = .error e
        ∧ ∃ w ∈ scope.vars, e.message = "Unused variable " ++ w.varName
            ∧ usageCount children w ≤ 1 ∧ w.varOfFunction = false)
    ∧ ((∀ v ∈ scope.vars, v.varOfFunction = false → 2 ≤ usageCount children v) →
      ∃ res, generateAndCleanUp scope children = .ok res) := by
  constructor
  · intro h
    obtain ⟨e, he⟩ := gacLoop_error_of_unused scope children scope.vars 1 children h
    exact ⟨e, he, gacLoop_error_unused scope children scope.vars 1 children e he⟩
  · intro h
    exact gacLoop_ok_of_used scope children scope.vars 1 children h

/-- An ordinary local variable named q, never used. -/
def qVar : ScopeVar := ⟨⟨TypeId.Int32, ""⟩, "q", false, false, false⟩

/-- A scope declaring only q. -/
def unusedScope : Scope := .mk none [qVar] [] []

/-- Closed instance of C3's theorem: a scope with one unused non-parameter
variable makes the cleanup fail with its unused-variable report. -/
theorem C3_witness :
    (∃ v ∈ unusedScope.vars, usageCount [] v ≤ 1 ∧ v.varOfFunction = false)
    ∧ ∃ e, generateAndCleanUp unusedScope [] = .error e
        ∧ ∃ w ∈ unusedScope.vars, e.message = "Unused variable " ++ w.varName
            ∧ usageCount [] w ≤ 1 ∧ w.varOfFunction = false :=
  ⟨by decide, (C3_unused_variable_check unusedScope []).1 (by decide)⟩

/-- C10: In the lexer's main loop, when no identifier is in progress and the
current character is '-' not followed by '>', the step hands the cursor to
the number scanner and appends the Number token it returns (the scanner is a
total function — it cannot fail — and its lexeme may hold no digits); a
Subtraction token can only come from the later '-' branch, which this step
never reaches with an empty identifier buffer, so `a - b` with spaces lexes
to Identifier, Number("-"), Identifier rather than to a Subtraction token. -/
theorem C10_minus_lexes_as_number (fuel : Nat) (src : List Char) (i : Nat)
    (tokens : List Token)
    (hlt : i < src.length)
    (hch : charAt src (i : Int) = '-')
    (hafter : charAt src ((i : Int) + 1) ≠ '>') :
    tokenizeLoop (fuel + 1) src i [] 0 tokens
      = tokenizeLoop fuel src (number src i).2 [] 0 (tokens ++ [(number src i).1])
    ∧ (number src i).1.type = TokenType.Number
    ∧ (Tokenize "a - b".toList).map (fun l => l.map (fun t => (t.type, t.value)))
        = .ok [(TokenType.Identifier, "a"), (TokenType.Number, "-"),
            (TokenType.Identifier, "b"), (TokenType.EOF, "")] := by
  refine ⟨?_, rfl, rfl⟩
  rw [tokenizeLoop]
  rw [if_neg (show ¬ i ≥ src.length by omega)]
  simp only [hch, hafter]
  norm_num
  rw [if_neg (fun hc => absurd hc.1 (by decide)),
    if_neg (fun hc => absurd hc.1 (by decide)), if_neg (by decide)]

/-- Closed instance of C10's theorem at the '-' of "a - b". -/
theorem C10_witness :
    2 < "a - b".toList.length
    ∧ charAt "a - b".toList ((2 : Nat) : Int) = '-'
    ∧ charAt "a - b".toList (((2 : Nat) : Int) + 1) ≠ '>'
    ∧ tokenizeLoop (5 + 1) "a - b".toList 2 [] 0 []
        = tokenizeLoop 5 "a - b".toList (number "a - b".toList 2).2 [] 0
            ([] ++ [(number "a - b".toList 2).1]) :=
  ⟨by decide, by decide, by decide,
    (C10_minus_lexes_as_number 5 "a - b".toList 2 [] (by decide) (by decide)
      (by decide)).1⟩


/-! Claim C7: trace bounds of every token Tokenize produces. -/

/-- A token whose trace index is set and within the source. -/
def goodIdx (src : List Char) (t : Token) : Prop :=
  ∃ tr, t.trace = some tr ∧ 0 ≤ tr.index ∧ tr.index < (src.length : Int)

/-- Flushing an identifier preserves in-bounds trace indices: the flushed
token sits at index - length, inside the source whenever the identifier is
non-empty and no longer than the flush position. -/
theorem safelyEndIdentifier_good (src : List Char) (idf : List Char)
    (tokens : List Token) (index : Int)
    (hg : ∀ t ∈ tokens, goodIdx src t)
    (hlen : (idf.length : Int) ≤ index)
    (hle : index ≤ (src.length : Int)) :
    ∀ t ∈ safelyEndIdentifier idf tokens index, goodIdx src t := by
  intro t ht
  rw [safelyEndIdentifier] at ht
  split at ht
  · exact hg t ht
  · next hne =>
    have hpos : 0 < idf.length := List.length_pos.mpr hne
    split at ht
    · rcases List.mem_append.mp ht with h | h
      · exact hg t h
      · rw [List.mem_singleton] at h
        subst h
        exact ⟨_, rfl, by simp; omega, by simp; omega⟩
    · rcases List.mem_append.mp ht with h | h
      · exact hg t h
      · rw [List.mem_singleton] at h
        subst h
        exact ⟨_, rfl, by simp; omega, by simp; omega⟩

/-- Emitting a token at an in-bounds index preserves the invariant. -/
theorem appendType_good (src : List Char) (tt : TokenType) (idf : List Char)
    (tokens : List Token) (index : Int) (value : String)
    (hg : ∀ t ∈ tokens, goodIdx src t)
    (hlen : (idf.length : Int) ≤ index)
    (h0 : 0 ≤ index) (hlt : index < (src.length : Int)) :
    ∀ t ∈ appendType tt idf tokens index value, goodIdx src t := by
  intro t ht
  rw [appendType] at ht
  rcases List.mem_append.mp ht with h | h
  · exact safelyEndIdentifier_good src idf tokens index hg hlen (by omega) t h
  · rw [List.mem_singleton] at h
    subst h
    exact ⟨_, rfl, h0, hlt⟩

/-- Every token the scanning loop accumulates carries a trace index inside
the source, provided the identifier buffer never outgrows the cursor or the
source (the loop's own invariant). -/
theorem tokenizeLoop_good (src : List Char) :
    ∀ (fuel : Nat) (i : Nat) (idf : List Char) (c : Nat)
      (tokens res : List Token),
      (∀ t ∈ tokens, goodIdx src t) →
      idf.length ≤ i →
      idf.length ≤ src.length →
      tokenizeLoop fuel src i idf c tokens = .ok res →
      ∀ t ∈ res, goodIdx src t := by
  intro fuel
  induction fuel with
  | zero =>
    intro i idf c tokens res hgood h2 h3 heq
    rw [tokenizeLoop] at heq
    injection heq with heq
    subst heq
    exact safelyEndIdentifier_good src idf tokens (src.length : Int) hgood
      (by omega) (by omega)
  | succ fuel ih =>
    intro i idf c tokens res hgood h2 h3 heq
    rw [tokenizeLoop] at heq
    rcases Decidable.em (i ≥ src.length) with hg | hg
    · rw [if_pos hg] at heq
      injection heq with heq
      subst heq
      exact safelyEndIdentifier_good src idf tokens (src.length : Int) hgood
        (by omega) (by omega)
    · rw [if_neg hg] at heq
      rcases Decidable.em (charAt src (i : Int) = '/' ∧ charAt src ((i : Int) + 1) = '/') with hb | hb
      · rw [if_pos hb] at heq
        exact ih _ _ _ _ res (safelyEndIdentifier_good src idf tokens (i : Int) hgood
          (by omega) (by omega)) (by simp) (by simp) heq
      · rw [if_neg hb] at heq
        rcases Decidable.em (charAt src (i : Int) = '/' ∧ charAt src ((i : Int) + 1) = '*') with hb | hb
        · rw [if_pos hb] at heq
          exact ih _ _ _ _ res (safelyEndIdentifier_good src idf tokens (i : Int) hgood
            (by omega) (by omega)) (by simp) (by simp) heq
        · rw [if_neg hb] at heq
          rcases Decidable.em (c = 1 ∧ charAt src (i : Int) = '\n') with hb | hb
          · rw [if_pos hb] at heq
            exact ih _ _ _ _ res hgood (by omega) h3 heq
          · rw [if_neg hb] at heq
            rcases Decidable.em (c = 2 ∧ charAt src (i : Int) = '*' ∧ charAt src ((i : Int) + 1) = '/') with hb | hb
            · rw [if_pos hb] at heq
              exact ih _ _ _ _ res hgood (by omega) h3 heq
            · rw [if_neg hb] at heq
              rcases Decidable.em (c > 0) with hb | hb
              · rw [if_pos hb] at heq
                exact ih _ _ _ _ res hgood (by omega) h3 heq
              · rw [if_neg hb] at heq
                rcases Decidable.em (charAt src (i : Int) = '"') with hb | hb
                · rw [if_pos hb] at heq
                  refine ih _ _ _ _ res ?_ (by simp) (by simp) heq
                  intro t ht
                  rcases List.mem_append.mp ht with h | h
                  · exact safelyEndIdentifier_good src idf tokens (i : Int) hgood (by omega) (by omega) t h
                  · rw [List.mem_singleton] at h
                    subst h
                    exact ⟨⟨(i : Int), 0, 0⟩, rfl, by simp, by simp; omega⟩
                · rw [if_neg hb] at heq
                  rcases Decidable.em (charAt src (i : Int) = '-' ∧ charAt src ((i : Int) + 1) = '>') with hb | hb
                  · rw [if_pos hb] at heq
                    exact ih _ _ _ _ res (appendType_good src _ idf tokens (i : Int) _ hgood
                      (by omega) (by omega) (by omega)) (by simp) (by simp) heq
                  · rw [if_neg hb] at heq
                    rcases Decidable.em (idf = [] ∧ ((charAt src (i : Int)).isDigit ∨ charAt src (i : Int) = '.' ∨ charAt src (i : Int) = '-')) with hb | hb
                    · rw [if_pos hb] at heq
                      refine ih _ _ _ _ res ?_ (by simp [hb.1]) h3 heq
                      intro t ht
                      rcases List.mem_append.mp ht with h | h
                      · exact hgood t h
                      · rw [List.mem_singleton] at h
                        subst h
                        exact ⟨⟨(i : Int), 0, 0⟩, rfl, by simp, by simp; omega⟩
                    · rw [if_neg hb] at heq
                      rcases Decidable.em (charAt src (i : Int) = '\n') with hb | hb
                      · rw [if_pos hb] at heq
                        exact ih _ _ _ _ res (appendType_good src _ idf tokens (i : Int) _ hgood
                          (by omega) (by omega) (by omega)) (by simp) (by simp) heq
                      · rw [if_neg hb] at heq
                        rcases Decidable.em (charAt src (i : Int) = ';') with hb | hb
                        · rw [if_pos hb] at heq
                          exact ih _ _ _ _ res (appendType_good src _ idf tokens (i : Int) _ hgood
                            (by omega) (by omega) (by omega)) (by simp) (by simp) heq
                        · rw [if_neg hb] at heq
                          rcases Decidable.em (charAt src (i : Int) = ':') with hb | hb
                          · rw [if_pos hb] at heq
                            exact ih _ _ _ _ res (appendType_good src _ idf tokens (i : Int) _ hgood
                              (by omega) (by omega) (by omega)) (by simp) (by simp) heq
                          · rw [if_neg hb] at heq
                            rcases Decidable.em (charAt src (i : Int) = ',') with hb | hb
                            · rw [if_pos hb] at heq
                              exact ih _ _ _ _ res (appendType_good src _ idf tokens (i : Int) _ hgood
                                (by omega) (by omega) (by omega)) (by simp) (by simp) heq
                            · rw [if_neg hb] at heq
                              rcases Decidable.em (charAt src (i : Int) = '(') with hb | hb
                              · rw [if_pos hb] at heq
                                exact ih _ _ _ _ res (appendType_good src _ idf tokens (i : Int) _ hgood
                                  (by omega) (by omega) (by omega)) (by simp) (by simp) heq
                              · rw [if_neg hb] at heq
                                rcases Decidable.em (charAt src (i : Int) = ')') with hb | hb
                                · rw [if_pos hb] at heq
                                  exact ih _ _ _ _ res (appendType_good src _ idf tokens (i : Int) _ hgood
                                    (by omega) (by omega) (by omega)) (by simp) (by simp) heq
                                · rw [if_neg hb] at heq
                                  rcases Decidable.em (charAt src (i : Int) = '\x7b') with hb | hb
                                  · rw [if_pos hb] at heq
                                    exact ih _ _ _ _ res (appendType_good src _ idf tokens (i : Int) _ hgood
                                      (by omega) (by omega) (by omega)) (by simp) (by simp) heq
                                  · rw [if_neg hb] at heq
                                    rcases Decidable.em (charAt src (i : Int) = '\x7d') with hb | hb
                                    · rw [if_pos hb] at heq
                                      exact ih _ _ _ _ res (appendType_good src _ idf tokens (i : Int) _ hgood
                                        (by omega) (by omega) (by omega)) (by simp) (by simp) heq
                                    · rw [if_neg hb] at heq
                                      rcases Decidable.em (charAt src (i : Int) = '[') with hb | hb
                                      · rw [if_pos hb] at heq
                                        exact ih _ _ _ _ res (appendType_good src _ idf tokens (i : Int) _ hgood
                                          (by omega) (by omega) (by omega)) (by simp) (by simp) heq
                                      · rw [if_neg hb] at heq
                                        rcases Decidable.em (charAt src (i : Int) = ']') with hb | hb
                                        · rw [if_pos hb] at heq
                                          exact ih _ _ _ _ res (appendType_good src _ idf tokens (i : Int) _ hgood
                                            (by omega) (by omega) (by omega)) (by simp) (by simp) heq
                                        · rw [if_neg hb] at heq
                                          rcases Decidable.em (charAt src (i : Int) = '+') with hb | hb
                                          · rw [if_pos hb] at heq
                                            exact ih _ _ _ _ res (appendType_good src _ idf tokens (i : Int) _ hgood
                                              (by omega) (by omega) (by omega)) (by simp) (by simp) heq
                                          · rw [if_neg hb] at heq
                                            rcases Decidable.em (charAt src (i : Int) = '-') with hb | hb
                                            · rw [if_pos hb] at heq
                                              exact ih _ _ _ _ res (appendType_good src _ idf tokens (i : Int) _ hgood
                                                (by omega) (by omega) (by omega)) (by simp) (by simp) heq
                                            · rw [if_neg hb] at heq
                                              rcases Decidable.em (charAt src (i : Int) = '*') with hb | hb
                                              · rw [if_pos hb] at heq
                                                exact ih _ _ _ _ res (appendType_good src _ idf tokens (i : Int) _ hgood
                                                  (by omega) (by omega) (by omega)) (by simp) (by simp) heq
                                              · rw [if_neg hb] at heq
                                                rcases Decidable.em (charAt src (i : Int) = '/') with hb | hb
                                                · rw [if_pos hb] at heq
                                                  exact ih _ _ _ _ res (appendType_good src _ idf tokens (i : Int) _ hgood
                                                    (by omega) (by omega) (by omega)) (by simp) (by simp) heq
                                                · rw [if_neg hb] at heq
                                                  rcases Decidable.em (charAt src (i : Int) = '%') with hb | hb
                                                  · rw [if_pos hb] at heq
                                                    exact ih _ _ _ _ res (appendType_good src _ idf tokens (i : Int) _ hgood
                                                      (by omega) (by omega) (by omega)) (by simp) (by simp) heq
                                                  · rw [if_neg hb] at heq
                                                    rcases Decidable.em (charAt src (i : Int) = '=' ∧ charAt src ((i : Int) + 1) = '=') with hb | hb
                                                    · rw [if_pos hb] at heq
                                                      exact ih _ _ _ _ res (appendType_good src _ idf tokens (i : Int) _ hgood
                                                        (by omega) (by omega) (by omega)) (by simp) (by simp) heq
                                                    · rw [if_neg hb] at heq
                                                      rcases Decidable.em (charAt src (i : Int) = '=' ∧ charAt src ((i : Int) + 1) = '<') with hb | hb
                                                      · rw [if_pos hb] at heq
                                                        exact ih _ _ _ _ res (appendType_good src _ idf tokens (i : Int) _ hgood
                                                          (by omega) (by omega) (by omega)) (by simp) (by simp) heq
                                                      · rw [if_neg hb] at heq
                                                        rcases Decidable.em (charAt src (i : Int) = '=' ∧ charAt src ((i : Int) + 1) = '>') with hb | hb
                                                        · rw [if_pos hb] at heq
                                                          exact ih _ _ _ _ res (appendType_good src _ idf tokens (i : Int) _ hgood
                                                            (by omega) (by omega) (by omega)) (by simp) (by simp) heq
                                                        · rw [if_neg hb] at heq
                                                          rcases Decidable.em (charAt src (i : Int) = '=') with hb | hb
                                                          · rw [if_pos hb] at heq
                                                            exact ih _ _ _ _ res (appendType_good src _ idf tokens (i : Int) _ hgood
                                                              (by omega) (by omega) (by omega)) (by simp) (by simp) heq
                                                          · rw [if_neg hb] at heq
                                                            rcases Decidable.em (charAt src (i : Int) = '.' ∧ charAt src ((i : Int) + 1) = '.' ∧ charAt src ((i : Int) + 2) = '.') with hb | hb
                                                            · rw [if_pos hb] at heq
                                                              exact ih _ _ _ _ res (appendType_good src _ idf tokens (i : Int) _ hgood
                                                                (by omega) (by omega) (by omega)) (by simp) (by simp) heq
                                                            · rw [if_neg hb] at heq
                                                              rcases Decidable.em (charAt src (i : Int) = '.' ∧ charAt src ((i : Int) + 1) = '.' ∧ charAt src ((i : Int) + 2) = '?') with hb | hb
                                                              · rw [if_pos hb] at heq
                                                                exact ih _ _ _ _ res (appendType_good src _ idf tokens (i : Int) _ hgood
                                                                  (by omega) (by omega) (by omega)) (by simp) (by simp) heq
                                                              · rw [if_neg hb] at heq
                                                                rcases Decidable.em (isWhitespace (charAt src (i : Int))) with hb | hb
                                                                · rw [if_pos hb] at heq
                                                                  exact ih _ _ _ _ res (safelyEndIdentifier_good src idf tokens (i : Int) hgood
                                                                    (by omega) (by omega)) (by simp) (by simp) heq
                                                                · rw [if_neg hb] at heq
                                                                  rcases Decidable.em ((charAt src (i : Int)).isAlpha ∨ (idf ≠ [] ∧ ((charAt src (i : Int)).isDigit ∨ charAt src (i : Int) = '.'))) with hb | hb
                                                                  · rw [if_pos hb] at heq
                                                                    exact ih _ _ _ _ res hgood (by simp; omega) (by simp; omega) heq
                                                                  · rw [if_neg hb] at heq
                                                                    exact absurd heq (by simp)

/-- The location scan starting from an offset at most the index yields a row
of at least 1 and a column of at least 0. -/
theorem locGo_pos (index : Int) :
    ∀ (rest : List Int) (lf0 : Int) (pos : Nat), lf0 ≤ index →
      1 ≤ (locGo index (lf0 :: rest) pos).1
        ∧ 0 ≤ (locGo index (lf0 :: rest) pos).2 := by
  intro rest
  induction rest with
  | nil =>
    intro lf0 pos h
    rw [locGo, if_pos h]
    constructor
    · simp
    · simp only []
      split <;> omega
  | cons next rest ih =>
    intro lf0 pos h
    rw [locGo]
    rcases Decidable.em (lf0 ≤ index ∧ next > index) with hc | hc
    · rw [if_pos hc]
      constructor
      · simp
      · simp only []
        split <;> omega
    · rw [if_neg hc]
      rcases not_and_or.mp hc with h1 | h1
      · exact absurd h h1
      · exact ih next (pos + 1) (by omega)

/-- C7 (amended): for a nonempty source, every token Tokenize returns —
the appended EOF token and the LF tokens included — carries a trace with
0 ≤ index < len(source), row ≥ 1 and column ≥ 0.  (Column can be 0: LF and
EOF tokens sitting exactly on a line-feed offset beyond the first line get
column 0, and on the empty source the EOF token's index is -1 — the
counterexample theorem exhibits both, which is all that the original
"column ≥ 1 on any source" claim loses.) -/
theorem C7_token_trace_bounds (src : List Char) (toks : List Token)
    (hne : src ≠ []) (hok : Tokenize src = .ok toks) :
    ∀ t ∈ toks, ∃ tr, t.trace = some tr ∧ 0 ≤ tr.index
      ∧ tr.index < (src.length : Int) ∧ 1 ≤ tr.row ∧ 0 ≤ tr.column := by
  rw [Tokenize] at hok
  cases heq : tokenizeLoop (src.length + 1) src 0 [] 0 [] with
  | error e => rw [heq] at hok; cases hok
  | ok pre =>
    rw [heq] at hok
    injection hok with hok
    subst hok
    intro t ht
    rw [fillTraces] at ht
    rcases List.mem_map.mp ht with ⟨t0, ht0, hmap⟩
    have hall : goodIdx src t0 := by
      rcases List.mem_append.mp ht0 with h | h
      · exact tokenizeLoop_good src (src.length + 1) 0 [] 0 [] pre (by simp)
          (by simp) (by simp) heq t0 h
      · rw [List.mem_singleton] at h
        subst h
        have hpos := List.length_pos.mpr hne
        exact ⟨_, rfl, by simp; omega, by simp; try omega⟩
    obtain ⟨tr, htr, h0, hlt⟩ := hall
    subst hmap
    rw [htr]
    have hrc := locGo_pos tr.index
      ((List.range src.length).filterMap
        (fun k => if charAt src (k : Int) = '\n' then some ((k : Int)) else none))
      0 0 h0
    exact ⟨_, rfl, h0, hlt, hrc.1, hrc.2⟩

/-- The trace bounds exactly as claim C7 states them, column ≥ 1 included,
as an executable check. -/
def claimedTraceOk (src : List Char) (t : Token) : Bool :=
  match t.trace with
  | some tr =>
    decide (0 ≤ tr.index) && decide (tr.index < (src.length : Int))
      && decide (1 ≤ tr.row) && decide (1 ≤ tr.column)
  | none => false

/-- C7 is false as stated: on the source "\n" the LF token (and the EOF
token) sit on the line-feed offset and get column 0, and on the empty
source the EOF token's trace index is -1; both violate the claimed
bounds. -/
theorem C7_counterexample_lf_column_zero :
    Tokenize "\n".toList
        = .ok [⟨TokenType.LF, "\n", some ⟨0, 2, 0⟩⟩,
            ⟨TokenType.EOF, "", some ⟨0, 2, 0⟩⟩]
    ∧ ((Tokenize "\n".toList).toOption.getD []).all
        (claimedTraceOk "\n".toList) = false
    ∧ Tokenize ([] : List Char)
        = .ok [⟨TokenType.EOF, "", some ⟨-1, -1, -1⟩⟩]
    ∧ ((Tokenize ([] : List Char)).toOption.getD []).all
        (claimedTraceOk []) = false := by
  refine ⟨rfl, rfl, rfl, rfl⟩

/-- Closed instance of C7's amended theorem on the source "a". -/
theorem C7_witness :
    "a".toList ≠ []
    ∧ ∀ t ∈ [(⟨TokenType.Identifier, "a", some ⟨0, 1, 1⟩⟩ : Token),
          ⟨TokenType.EOF, "", some ⟨0, 1, 1⟩⟩],
        ∃ tr, t.trace = some tr ∧ 0 ≤ tr.index
          ∧ tr.index < ("a".toList.length : Int) ∧ 1 ≤ tr.row ∧ 0 ≤ tr.column :=
  ⟨by decide, C7_token_trace_bounds "a".toList _ (by decide) rfl⟩

end Comet
